import Mathlib

/-!
Verification of the Dialogue Delivery Engine of the BotNewDD repository.

This file gives a shallow embedding, in Lean, of the dialogue subsystem:
the per-message gate evaluator (`_check_conditions` in
`app/routes/player_routes.py`), thread visibility (`_thread_visible`),
the graph traversal of `dialogue_view`, the reply endpoint
`dialogue_reply`, the transition-trigger creation block of
`dialogue_view`, and the background jobs of `app/scheduler_dialogue.py`.

Conventions of the embedding:
* Database integer timestamps are modelled as `Int` values; a JSON
  timestamp string is modelled by `TimeStr` (`valid t` for a string whose
  ISO parse succeeds, `malformed` for one whose parse raises).
* Python truthiness of an optional integer id (absent / `None` / `0`
  are all falsy) is modelled by `truthyId` on `Option Nat`.
* The SQLAlchemy session is modelled by an explicit `Db` record; adding
  a row appends to the corresponding list, and (matching the session's
  autoflush behaviour) a pending insert is visible to later queries of
  the same run.  Query results are returned in insertion order.
* `notify_*` dispatch calls return a boolean that the callers discard;
  they are modelled by log entries whose `ok` field is supplied by an
  oracle and never examined.
-/

namespace BotDD

/-- A JSON timestamp string as the code sees it: either it parses to a
concrete instant or `datetime.fromisoformat` raises. -/
inductive TimeStr where
  | valid (t : Int)
  | malformed
deriving DecidableEq, Repr

/-- Python truthiness of an optional integer id: absent and `0` are falsy. -/
def truthyId : Option Nat → Bool
  | none => false
  | some n => n != 0

/-- One entry of a message's `reply_options` list. -/
structure ReplyOption where
  text : String
  nextMessageId : Option Nat
  delaySeconds : Int := 0
deriving DecidableEq, Repr

/-- The `thread_key`/`thread_id` reference of a `trigger_dialogue`
annotation: `byId` covers an integer or all-digits string, `byKey` a
non-numeric key string. -/
inductive ThreadRef where
  | byId (i : Nat)
  | byKey (k : String)
deriving DecidableEq, Repr

/-- The optional `trigger_dialogue` entry of a message payload. -/
structure TriggerDialogue where
  target : Option ThreadRef
  delayMinutes : Int := 0
deriving DecidableEq, Repr

/-- The `gate_rules` JSON dict of a message.  `conditionType = none`
models an absent `condition_type` key. -/
structure GateRules where
  conditionType : Option String := none
  scheduledAt : Option TimeStr := none
  stationId : Option Nat := none
  afterMessageId : Option Nat := none
deriving DecidableEq, Repr

/-- A row of `dialogue_messages` together with the payload fields the
engine reads. -/
structure Msg where
  id : Nat
  eventId : Nat
  threadId : Nat
  audience : String := "TEAM"
  orderIndex : Int := 0
  replyOptions : List ReplyOption := []
  triggerDialogue : Option TriggerDialogue := none
  gateRules : Option GateRules := none
deriving DecidableEq, Repr

/-- The per-thread entry of the admin override bag
(`team_progress["dialogue_overrides"][thread_key]`). -/
structure ThreadOverride where
  forceRevealMessageIds : List Nat := []
  holdUntil : Option TimeStr := none
deriving DecidableEq, Repr

/-- The `team_progress` JSON bag of a team.  `hasOtherKeys` records
whether the dict holds keys besides `dialogue_overrides`, which matters
only for the dict's Python truthiness. -/
structure TeamProgress where
  hasOtherKeys : Bool := false
  dialogueOverrides : List (String × ThreadOverride) := []
deriving DecidableEq, Repr

/-- Python truthiness of the `team_progress` dict. -/
def TeamProgress.truthy (tp : TeamProgress) : Bool :=
  tp.hasOtherKeys || !tp.dialogueOverrides.isEmpty

/-- Mirror of `overrides.get(thread_key) or` the empty dict. -/
def TeamProgress.overrideFor (tp : TeamProgress) (key : String) : ThreadOverride :=
  match tp.dialogueOverrides.find? (fun e => e.1 == key) with
  | some e => e.2
  | none => {}

/-- The gate-kind chain of `_check_conditions` (player_routes.py lines
406-425): `immediate` / `scheduled` / `after_station` / `after_message`,
with an unrecognized kind and every malformed or absent field degrading
to visible. -/
def gateRuleEval (rules : GateRules) (now : Int)
    (repliedIds visitedStationIds : List Nat) : Bool :=
  let ct := rules.conditionType.getD "immediate"
  if ct == "immediate" then true
  else if ct == "scheduled" then
    match rules.scheduledAt with
    | none => true
    | some TimeStr.malformed => true
    | some (TimeStr.valid t) => decide (t ≤ now)
  else if ct == "after_station" then
    if truthyId rules.stationId then decide (rules.stationId.getD 0 ∈ visitedStationIds)
    else true
  else if ct == "after_message" then
    if truthyId rules.afterMessageId then decide (rules.afterMessageId.getD 0 ∈ repliedIds)
    else true
  else true

/-- Mirror of `_check_conditions` of player_routes.py: admin force-reveal and hold
overrides (guarded by Python truthiness of `team_progress` and
`thread_key`), then the gate-kind chain. -/
def checkConditions (m : Msg) (now : Int) (repliedIds visitedStationIds : List Nat)
    (teamProgress : TeamProgress) (threadKey : String) : Bool :=
  let rules := m.gateRules.getD {}
  if teamProgress.truthy && threadKey != "" then
    let thrOver := teamProgress.overrideFor threadKey
    if m.id ∈ thrOver.forceRevealMessageIds then true
    else
      match thrOver.holdUntil with
      | some (TimeStr.valid t) =>
        if now < t then false
        else gateRuleEval rules now repliedIds visitedStationIds
      | _ => gateRuleEval rules now repliedIds visitedStationIds
  else gateRuleEval rules now repliedIds visitedStationIds

/-- Whether an admin hold is set and still in the future. -/
def holdActive (hold : Option TimeStr) (now : Int) : Bool :=
  match hold with
  | some (TimeStr.valid t) => decide (now < t)
  | _ => false

/-- ASCII uppercase of one character, mirroring `str.upper` for the
ASCII range the thread-type strings use. -/
def upperChar (c : Char) : Char :=
  if 97 ≤ c.toNat ∧ c.toNat ≤ 122 then Char.ofNat (c.toNat - 32) else c

/-- ASCII uppercase of a string (`str.upper`). -/
def pyUpper (s : String) : String := String.mk (s.data.map upperChar)

/-- Mirror of `_thread_visible` of player_routes.py: LEAKED threads are visible
unless gated by a start rule and not unlocked; INTERACTIVE threads need
both a start rule and an unlock. -/
def threadVisible (threadId : Nat) (threadType : String)
    (withConfig unlocked : List Nat) : Bool :=
  if pyUpper threadType == "INTERACTIVE" then
    threadId ∈ withConfig && threadId ∈ unlocked
  else
    !(threadId ∈ withConfig : Bool) || threadId ∈ unlocked

/-! ## Traversal engine (`dialogue_view`, player_routes.py lines 493-542) -/

/-- The player context a `dialogue_view` traversal runs with.  `replies`
lists the player's `DialogueReply` rows for the event, as
`(message_id, next_message_id)` pairs in insertion order. -/
structure WalkCtx where
  msgs : List Msg
  role : String
  now : Int
  replies : List (Nat × Option Nat)
  visitedStationIds : List Nat
  teamProgress : TeamProgress := {}
  threadKey : String
deriving Repr

/-- The `replied_ids` set of the player. -/
def WalkCtx.repliedIds (ctx : WalkCtx) : List Nat := ctx.replies.map Prod.fst

/-- Mirror of `replies_by_msg.get(mid)`: the dict built by iterating the reply rows
keeps the last (most recent) row per message id. -/
def WalkCtx.repliesByMsgGet (ctx : WalkCtx) (mid : Nat) : Option (Option Nat) :=
  ((ctx.replies.filter (fun e => e.1 == mid)).getLast?).map Prod.snd

/-- Python truthiness of `replies_by_msg.get(mid)` (`None` and `0` falsy). -/
def truthyGet : Option (Option Nat) → Bool
  | some (some n) => n != 0
  | _ => false

/-- Mirror of `msgs_by_id.get(mid)`. -/
def findMsg (msgs : List Msg) (mid : Nat) : Option Msg :=
  msgs.find? (fun m => m.id == mid)

/-- Mirror of `mid in msgs_by_id`. -/
def memberIds (msgs : List Msg) (mid : Nat) : Bool :=
  msgs.any (fun m => m.id == mid)

/-- Mirror of the audience check `m.audience in (TEAM, role)`. -/
def audienceOk (m : Msg) (role : String) : Bool :=
  m.audience == "TEAM" || m.audience == role

/-- The gate check the traversal applies per node. -/
def WalkCtx.check (ctx : WalkCtx) (m : Msg) : Bool :=
  checkConditions m ctx.now ctx.repliedIds ctx.visitedStationIds
    ctx.teamProgress ctx.threadKey

/-- What a traversal call produces: the visible message ids in emission
order and the pending-choice node, if any. -/
structure WalkResult where
  visibleIds : List Nat
  pending : Option Nat
deriving DecidableEq, Repr

/-- The `while queue:` loop of `dialogue_view`.  The queue is popped at
the front and successors are inserted at the front, exactly as the
source does; `fuel` bounds the number of iterations and `none` means the
bound was exhausted. -/
def walkAux (ctx : WalkCtx) : Nat → List Nat → List Nat → List Nat → Option WalkResult
  | 0, _, _, _ => none
  | _ + 1, [], _, visible => some ⟨visible, none⟩
  | fuel + 1, mid :: rest, visited, visible =>
    if mid ∈ visited then walkAux ctx fuel rest visited visible
    else
      let visited' := mid :: visited
      match findMsg ctx.msgs mid with
      | none => walkAux ctx fuel rest visited' visible
      | some m =>
        if !audienceOk m ctx.role || !ctx.check m then
          walkAux ctx fuel rest visited' visible
        else
          let visible' := visible ++ [mid]
          match m.replyOptions.filter (fun o => truthyId o.nextMessageId) with
          | [] => walkAux ctx fuel rest visited' visible'
          | [o] =>
            let nid := o.nextMessageId.getD 0
            if nid != 0 && !(nid ∈ visited' : Bool) then
              walkAux ctx fuel (nid :: rest) visited' visible'
            else walkAux ctx fuel rest visited' visible'
          | _ :: _ :: _ =>
            if mid ∈ ctx.repliedIds && truthyGet (ctx.repliesByMsgGet mid) then
              let nid := ((ctx.repliesByMsgGet mid).getD none).getD 0
              if nid != 0 && memberIds ctx.msgs nid && !(nid ∈ visited' : Bool) then
                walkAux ctx fuel (nid :: rest) visited' visible'
              else walkAux ctx fuel rest visited' visible'
            else some ⟨visible', some mid⟩

/-- Whether some message's reply option points at `mid` (an incoming
edge); dangling option targets are ignored, as in the source. -/
def hasIncoming (msgs : List Msg) (mid : Nat) : Bool :=
  msgs.any (fun m => m.replyOptions.any (fun o =>
    truthyId o.nextMessageId && o.nextMessageId.getD 0 == mid &&
      memberIds msgs (o.nextMessageId.getD 0)))

/-- Python `min(..., key=order_index)`: the first element with minimal
order index. -/
def minByOrder : List Msg → Option Msg
  | [] => none
  | m :: ms => some (ms.foldl (fun best x =>
      if x.orderIndex < best.orderIndex then x else best) m)

/-- The entry node: the first minimal-order message without incoming
edges, falling back to the first minimal-order message overall. -/
def startId (msgs : List Msg) : Option Nat :=
  match msgs.filter (fun m => !hasIncoming msgs m.id) with
  | [] => (minByOrder msgs).map Msg.id
  | cands => (minByOrder cands).map Msg.id

/-- One full traversal call: walk from the entry node with a fuel budget
that provably suffices (`walk_terminates_nodup`). -/
def dialogueWalk (ctx : WalkCtx) : Option WalkResult :=
  match startId ctx.msgs with
  | none => none
  | some s => walkAux ctx (2 * ctx.msgs.length + 2) [s] [] []

/-- Message ids present in the graph, as a finset. -/
def idsF (msgs : List Msg) : Finset Nat := (msgs.map Msg.id).toFinset

/-- How many graph nodes have not been visited yet. -/
def freshCount (msgs : List Msg) (visited : List Nat) : Nat :=
  (idsF msgs \ visited.toFinset).card

/-- A concrete four-node thread: node 1 has a single targeted option to
node 2; node 2 branches to nodes 3 and 4. -/
def brMsgs : List Msg := [
  { id := 1, eventId := 1, threadId := 1, orderIndex := 0,
    replyOptions := [{ text := "go", nextMessageId := some 2 }] },
  { id := 2, eventId := 1, threadId := 1, orderIndex := 1,
    replyOptions := [{ text := "a", nextMessageId := some 3 },
                     { text := "b", nextMessageId := some 4 }] },
  { id := 3, eventId := 1, threadId := 1, orderIndex := 2 },
  { id := 4, eventId := 1, threadId := 1, orderIndex := 3 }]

/-- A player context on `brMsgs` with no recorded replies. -/
def brCtx : WalkCtx :=
  { msgs := brMsgs, role := "ROLE_A", now := 0, replies := [],
    visitedStationIds := [], threadKey := "t" }

/-- The same context after the player chose option `b` at node 2. -/
def brCtxReplied : WalkCtx := { brCtx with replies := [(2, some 4)] }

/-! ## Store model -/

/-- A row of `dialogue_threads` with the configuration the engine reads. -/
structure Thread where
  id : Nat
  eventId : Nat
  key : String
  type : String := "LEAKED"
  defaultTypingDelay : Int := 2
deriving DecidableEq, Repr

/-- A row of `dialogue_replies`. -/
structure ReplyRow where
  eventId : Nat
  playerId : Nat
  messageId : Nat
  replyText : String
  nextMessageId : Option Nat
  repliedAt : Int
deriving DecidableEq, Repr

/-- A row of `dialogue_transition_triggers` (columns from the table's
creation DDL in `scripts/create_dialogue_transition_table.py`).
`unlockAt` is kept in minutes, matching `delay_minutes`. -/
structure TriggerRow where
  eventId : Nat
  teamId : Nat
  sourceMessageId : Nat
  targetThreadId : Nat
  unlockAt : Int
deriving DecidableEq, Repr

/-- A row of `teams` with its override bag. -/
structure TeamRec where
  id : Nat
  eventId : Nat
  teamProgress : TeamProgress := {}
deriving DecidableEq, Repr

/-- A row of `players`. -/
structure PlayerRec where
  id : Nat
  eventId : Nat
  tgId : Nat
  teamId : Option Nat := none
  role : Option String := none
deriving DecidableEq, Repr

/-- One `notify_dialogue_message` dispatch; `ok` is the boolean the
channel returned, which the caller discards. -/
structure Push where
  tgId : Nat
  messageId : Nat
  teamId : Nat
  ok : Bool
deriving DecidableEq, Repr

/-- The transactional store.  `unlocks` holds `(thread_id, team_id)`
pairs, `deliveries` holds `(message_id, team_id)` pairs, and
`unlockNotifyLog` records `(tg_id, thread_id)` unlock notifications. -/
structure Db where
  threads : List Thread := []
  msgs : List Msg := []
  teams : List TeamRec := []
  players : List PlayerRec := []
  replies : List ReplyRow := []
  unlocks : List (Nat × Nat) := []
  triggers : List TriggerRow := []
  deliveries : List (Nat × Nat) := []
  pushLog : List Push := []
  unlockNotifyLog : List (Nat × Nat) := []
deriving DecidableEq, Repr

/-! ## Reply endpoint (`dialogue_reply`, player_routes.py lines 627-756) -/

/-- ASCII lowercase of one character (`str.lower` on the ASCII range). -/
def lowerChar (c : Char) : Char :=
  if 65 ≤ c.toNat ∧ c.toNat ≤ 90 then Char.ofNat (c.toNat + 32) else c

/-- ASCII lowercase of a string. -/
def pyLower (s : String) : String := String.mk (s.data.map lowerChar)

/-- Mirror of `text.strip().lower()`, the normalisation the fallback match uses. -/
def normText (s : String) : String := pyLower s.trim

/-- The thread lookup by event and key the endpoint performs first. -/
def findThreadByKey (threads : List Thread) (eventId : Nat) (key : String) : Option Thread :=
  threads.find? (fun t => t.eventId == eventId && t.key == key)

/-- Whether a message's owning thread belongs to the event (the join in
the endpoint's source-message query). -/
def msgThreadInEvent (threads : List Thread) (m : Msg) (eventId : Nat) : Bool :=
  threads.any (fun t => t.id == m.threadId && t.eventId == eventId)

/-- The form fields of a reply POST. -/
structure ReplyForm where
  message : String
  messageId : Option Nat := none
  nextMessageId : Option Nat := none
  delaySeconds : Int := 0
deriving DecidableEq, Repr

/-- The sort key order of `sorted(thread.messages, ...)`. -/
def msgOrderLe (a b : Msg) : Prop :=
  a.orderIndex < b.orderIndex ∨ (a.orderIndex = b.orderIndex ∧ a.id ≤ b.id)

instance : DecidableRel msgOrderLe := fun a b => by
  unfold msgOrderLe; infer_instance

/-- The thread's messages in the order the fallback loop scans them. -/
def sortedThreadMsgs (msgs : List Msg) (threadId : Nat) : List Msg :=
  List.insertionSort msgOrderLe (msgs.filter (fun m => m.threadId == threadId))

/-- The `(message, option)` pairs the fallback loop scans, in order. -/
def threadOptionPairs (msgs : List Msg) (threadId : Nat) : List (Msg × ReplyOption) :=
  (sortedThreadMsgs msgs threadId).flatMap (fun m => m.replyOptions.map (fun o => (m, o)))

/-- The text-matching fallback of `dialogue_reply`: the first option
whose text matches yields a `(source message id, next message id)` pair
if its target is nonzero and names an existing message (queried with no
thread or event filter); otherwise scanning continues. -/
def fallbackSearch (msgs : List Msg) (text : String) :
    List (Msg × ReplyOption) → Option (Nat × Nat)
  | [] => none
  | (m, o) :: rest =>
    if normText o.text == normText text then
      if truthyId o.nextMessageId then
        if msgs.any (fun x => x.id == o.nextMessageId.getD 0) then
          some (m.id, o.nextMessageId.getD 0)
        else fallbackSearch msgs text rest
      else fallbackSearch msgs text rest
    else fallbackSearch msgs text rest

/-- The persistence decision of `dialogue_reply`: the Reply row the
request writes, if any.  The id path looks the source message up in the
whole event and the target in the named thread, writes when both exist,
and returns without the fallback whenever the target was found. -/
def dialogueReplyWrite (db : Db) (eventId playerId : Nat) (key : String)
    (form : ReplyForm) (now : Int) : Option ReplyRow :=
  (findThreadByKey db.threads eventId key).bind (fun thread =>
    if truthyId form.messageId && truthyId form.nextMessageId then
      match db.msgs.find? (fun m => m.id == form.nextMessageId.getD 0 &&
              m.threadId == thread.id),
            db.msgs.find? (fun m => m.id == form.messageId.getD 0 &&
              msgThreadInEvent db.threads m eventId) with
      | some nm, some sm =>
        some ⟨eventId, playerId, sm.id, form.message, some nm.id, now⟩
      | some _, none => none
      | none, _ =>
        (fallbackSearch db.msgs form.message (threadOptionPairs db.msgs thread.id)).map
          (fun p => ⟨eventId, playerId, p.1, form.message, some p.2, now⟩)
    else
      (fallbackSearch db.msgs form.message (threadOptionPairs db.msgs thread.id)).map
        (fun p => ⟨eventId, playerId, p.1, form.message, some p.2, now⟩))

/-- The endpoint `dialogue_reply` as a state transformer: the written row is appended
to the reply table (`db.add`), never replacing anything. -/
def dialogueReplyRun (db : Db) (eventId playerId : Nat) (key : String)
    (form : ReplyForm) (now : Int) : Db × Option ReplyRow :=
  match dialogueReplyWrite db eventId playerId key form now with
  | some r => ({ db with replies := db.replies ++ [r] }, some r)
  | none => (db, none)

/-- The reply rows of one player in one event, as the traversal queries
them, in insertion order. -/
def playerReplyPairs (rows : List ReplyRow) (playerId eventId : Nat) :
    List (Nat × Option Nat) :=
  (rows.filter (fun r => r.playerId == playerId && r.eventId == eventId)).map
    (fun r => (r.messageId, r.nextMessageId))

/-- Lookup `replies_by_msg.get(mid)` over a plain pair list: the dict built row
by row keeps the last (most recent) entry per message id. -/
def repliesByMsgLookup (prs : List (Nat × Option Nat)) (mid : Nat) :
    Option (Option Nat) :=
  ((prs.filter (fun e => e.1 == mid)).getLast?).map Prod.snd

/-! ## Transition-trigger creation (`dialogue_view`, lines 559-602) -/

/-- Resolving the `trigger_dialogue` target reference within the event. -/
def resolveTargetThread (db : Db) (eventId : Nat) : ThreadRef → Option Thread
  | ThreadRef.byId i => db.threads.find? (fun t => t.id == i && t.eventId == eventId)
  | ThreadRef.byKey k => db.threads.find? (fun t => t.key == k && t.eventId == eventId)

/-- Handling of one emitted message's `trigger_dialogue` annotation:
skip on a falsy target, negative delay, unresolved or self target, or an
existing trigger row for the same `(team, source, target)`; otherwise
insert a trigger with `unlock_at = now + delay`. -/
def processTriggerMsg (eventId teamId curThreadId : Nat) (now : Int)
    (db : Db) (m : Msg) : Db :=
  match m.triggerDialogue with
  | none => db
  | some tr =>
    match tr.target with
    | none => db
    | some ref =>
      if tr.delayMinutes < 0 then db
      else
        match resolveTargetThread db eventId ref with
        | none => db
        | some tt =>
          if tt.id == curThreadId then db
          else if db.triggers.any (fun g => g.teamId == teamId &&
              g.sourceMessageId == m.id && g.targetThreadId == tt.id) then db
          else
            { db with triggers := db.triggers ++
                [{ eventId := eventId, teamId := teamId, sourceMessageId := m.id,
                   targetThreadId := tt.id, unlockAt := now + tr.delayMinutes }] }

/-- The trigger-creation loop over the emitted messages. -/
def createTriggers (eventId teamId curThreadId : Nat) (now : Int)
    (visibleMsgs : List Msg) (db : Db) : Db :=
  visibleMsgs.foldl (processTriggerMsg eventId teamId curThreadId now) db

/-! ## Scheduler job: chained transitions (scheduler_dialogue.py 175-201) -/

/-- One elapsed trigger: discard it if the target thread is already
unlocked for the team, otherwise notify the team's players, write the
unlock, and discard it. -/
def transStep (db : Db) (g : TriggerRow) : Db :=
  if db.unlocks.any (fun u => u.1 == g.targetThreadId && u.2 == g.teamId) then
    { db with triggers := db.triggers.erase g }
  else
    let recips := (db.players.filter (fun p =>
        p.teamId == some g.teamId && p.tgId != 0)).map
      (fun p => (p.tgId, g.targetThreadId))
    { db with unlocks := db.unlocks ++ [(g.targetThreadId, g.teamId)],
              triggers := db.triggers.erase g,
              unlockNotifyLog := db.unlockNotifyLog ++ recips }

/-- Mirror of `process_dialogue_transitions`: fold over the snapshot of elapsed
triggers whose target thread exists. -/
def processTransitions (now : Int) (db : Db) : Db :=
  (db.triggers.filter (fun g => decide (g.unlockAt ≤ now) &&
      db.threads.any (fun t => t.id == g.targetThreadId))).foldl transStep db

/-! ## Scheduler job: scheduled-message push (scheduler_dialogue.py 35-119) -/

/-- Mirror of `msg.audience or TEAM`. -/
def pyOrStr (s dflt : String) : String := if s == "" then dflt else s

/-- The recipient resolution of the scheduled-push job. -/
def schedRecipients (db : Db) (m : Msg) (teamId : Nat) : List PlayerRec :=
  let audience := pyOrStr m.audience "TEAM"
  if audience == "TEAM" then
    db.players.filter (fun p => p.teamId == some teamId)
  else if audience == "ROLE_A" then
    db.players.filter (fun p => p.teamId == some teamId &&
      (p.role == some "ROLE_A" || p.role == some "A"))
  else if audience == "ROLE_B" then
    db.players.filter (fun p => p.teamId == some teamId &&
      (p.role == some "ROLE_B" || p.role == some "B"))
  else []

/-- One `(message, team)` unit of the push job: skip if a
ScheduledDelivery row exists, otherwise push to every recipient with a
truthy `tg_id` and write the row regardless of recipients or of the
booleans the channel returns (the `sendOk` oracle). -/
def schedProcessTeam (sendOk : Nat → Bool) (m : Msg) (db : Db) (t : TeamRec) : Db :=
  if db.deliveries.any (fun d => d.1 == m.id && d.2 == t.id) then db
  else
    let pushes := ((schedRecipients db m t.id).filter (fun p => p.tgId != 0)).map
      (fun p => { tgId := p.tgId, messageId := m.id, teamId := t.id,
                  ok := sendOk p.tgId : Push })
    { db with pushLog := db.pushLog ++ pushes,
              deliveries := db.deliveries ++ [(m.id, t.id)] }

/-- Whether the job treats a message as an elapsed scheduled message:
its thread exists (the join), its gate kind is exactly `scheduled`, and
its timestamp parses and has passed. -/
def schedEligible (db : Db) (now : Int) (m : Msg) : Bool :=
  db.threads.any (fun t => t.id == m.threadId) &&
  ((m.gateRules.getD {}).conditionType == some "scheduled") &&
  (match (m.gateRules.getD {}).scheduledAt with
   | some (TimeStr.valid t) => decide (t ≤ now)
   | _ => false)

/-- One message of the outer loop: if elapsed, process every team of the
message's event. -/
def schedProcessMsg (sendOk : Nat → Bool) (now : Int) (db : Db) (m : Msg) : Db :=
  if schedEligible db now m then
    (db.teams.filter (fun t => t.eventId == m.eventId)).foldl
      (schedProcessTeam sendOk m) db
  else db

/-- Mirror of `process_scheduled_dialogues`: the full job over all messages. -/
def processScheduledDialogues (sendOk : Nat → Bool) (now : Int) (db : Db) : Db :=
  db.msgs.foldl (schedProcessMsg sendOk now) db

/-- ScheduledDelivery rows for one `(message, team)` pair. -/
def countD (db : Db) (a b : Nat) : Nat :=
  (db.deliveries.filter (fun d => d.1 == a && d.2 == b)).length

/-- Push-log entries for one `(message, team)` pair. -/
def pushesFor (db : Db) (a b : Nat) : List Push :=
  db.pushLog.filter (fun p => p.messageId == a && p.teamId == b)

/-- ThreadUnlock rows for one `(thread, team)` pair. -/
def countU (db : Db) (a b : Nat) : Nat :=
  (db.unlocks.filter (fun u => u.1 == a && u.2 == b)).length

/-- The parts of the store the push job never writes: the job only
appends to `pushLog` and `deliveries`. -/
def SchedStatic (db s : Db) : Prop :=
  s.threads = db.threads ∧ s.msgs = db.msgs ∧ s.teams = db.teams ∧
    s.players = db.players

/-- Two stores that agree on everything the push job reads and writes
except the push log (whose `ok` bits come from the external channel). -/
def EqExceptPush (s1 s2 : Db) : Prop :=
  s1.threads = s2.threads ∧ s1.msgs = s2.msgs ∧ s1.teams = s2.teams ∧
    s1.players = s2.players ∧ s1.deliveries = s2.deliveries

/-! ## Store schema constraints (models.py and the creation DDL) -/

/-- Unique constraints declared on `dialogue_scheduled_deliveries`
(models.py lines 237-244): none beyond the integer primary key. -/
def scheduledDeliveryUniqueConstraints : List (List String) := []

/-- Unique constraints declared on `dialogue_thread_unlocks`
(models.py lines 272-279 and `scripts/create_dialogue_start_tables.py`):
none beyond the integer primary key. -/
def threadUnlockUniqueConstraints : List (List String) := []

/-- Unique constraints declared on `players`, for contrast: the schema
does use table-level unique keys where they were intended. -/
def playersUniqueConstraints : List (List String) := [["event_id", "tg_id"]]

/-- A stored `dialogue_scheduled_deliveries` row with its primary key. -/
structure StoredDeliveryRow where
  id : Nat
  messageId : Nat
  teamId : Nat
deriving DecidableEq, Repr

/-- A stored `dialogue_thread_unlocks` row with its primary key. -/
structure StoredUnlockRow where
  id : Nat
  threadId : Nat
  teamId : Nat
deriving DecidableEq, Repr

/-- Column projection of a delivery row by column name. -/
def deliveryCol (r : StoredDeliveryRow) (c : String) : Nat :=
  if c == "id" then r.id
  else if c == "message_id" then r.messageId
  else if c == "team_id" then r.teamId
  else 0

/-- Column projection of an unlock row by column name. -/
def unlockCol (r : StoredUnlockRow) (c : String) : Nat :=
  if c == "id" then r.id
  else if c == "thread_id" then r.threadId
  else if c == "team_id" then r.teamId
  else 0

/-- Whether a set of rows satisfies a unique constraint over the named
columns. -/
def deliveryRowsUnique (cols : List String) (rows : List StoredDeliveryRow) : Bool :=
  decide (rows.map (fun r => cols.map (deliveryCol r))).Nodup

/-- Whether a set of unlock rows satisfies a unique constraint. -/
def unlockRowsUnique (cols : List String) (rows : List StoredUnlockRow) : Bool :=
  decide (rows.map (fun r => cols.map (unlockCol r))).Nodup

/-- Whether the store accepts a `dialogue_scheduled_deliveries` state:
primary-key uniqueness plus every declared unique constraint. -/
def deliveryTableAdmits (rows : List StoredDeliveryRow) : Bool :=
  decide (rows.map StoredDeliveryRow.id).Nodup &&
    scheduledDeliveryUniqueConstraints.all (fun cs => deliveryRowsUnique cs rows)

/-- Whether the store accepts a `dialogue_thread_unlocks` state. -/
def unlockTableAdmits (rows : List StoredUnlockRow) : Bool :=
  decide (rows.map StoredUnlockRow.id).Nodup &&
    threadUnlockUniqueConstraints.all (fun cs => unlockRowsUnique cs rows)

/-! ## Concrete states for witnesses and counterexamples -/

/-- A store for the reply endpoint: the named thread `"a"` (id 1) holds
message 2; a different thread `"b"` (id 3) of the same event holds
message 4, which has no reply options at all. -/
def replyDb : Db :=
  { threads := [{ id := 1, eventId := 1, key := "a", type := "INTERACTIVE" },
                { id := 3, eventId := 1, key := "b" }],
    msgs := [{ id := 2, eventId := 1, threadId := 1 },
             { id := 4, eventId := 1, threadId := 3 }] }

/-- A store with one message of thread 1 carrying a `trigger_dialogue`
annotation pointing at thread `"b"` with a 10-minute delay. -/
def trigDb : Db :=
  { threads := [{ id := 1, eventId := 1, key := "a" },
                { id := 2, eventId := 1, key := "b" }],
    msgs := [{ id := 5, eventId := 1, threadId := 1,
               triggerDialogue := some { target := some (ThreadRef.byKey "b"),
                                         delayMinutes := 10 } }],
    teams := [{ id := 7, eventId := 1 }] }

/-- The message of `trigDb` that carries the annotation. -/
def trigMsg : Msg :=
  { id := 5, eventId := 1, threadId := 1,
    triggerDialogue := some { target := some (ThreadRef.byKey "b"),
                              delayMinutes := 10 } }

/-- A store for the push job: one elapsed scheduled message in thread 1,
one team with two players, one of them lacking a Telegram id. -/
def schedDb : Db :=
  { threads := [{ id := 1, eventId := 1, key := "a" }],
    msgs := [{ id := 6, eventId := 1, threadId := 1,
               gateRules := some { conditionType := some "scheduled",
                                   scheduledAt := some (TimeStr.valid 50) } }],
    teams := [{ id := 7, eventId := 1 }],
    players := [{ id := 11, eventId := 1, tgId := 101, teamId := some 7,
                  role := some "ROLE_A" },
                { id := 12, eventId := 1, tgId := 0, teamId := some 7,
                  role := some "ROLE_B" }] }

/-! ## Theorems -/

/-- C2: gate evaluation applies the force-reveal override first (visible
unconditionally, even under an active hold), then the hold override (not
visible while `hold_until` is in the future, regardless of the gate
rule), and only then the message's own gate kind. -/
theorem gate_override_order (m : Msg) (now : Int)
    (repliedIds visitedStationIds : List Nat) (tp : TeamProgress)
    (threadKey : String) (hk : threadKey ≠ "") :
    checkConditions m now repliedIds visitedStationIds tp threadKey =
      (if m.id ∈ (tp.overrideFor threadKey).forceRevealMessageIds then true
       else if holdActive (tp.overrideFor threadKey).holdUntil now then false
       else gateRuleEval (m.gateRules.getD {}) now repliedIds visitedStationIds) := by
  unfold checkConditions holdActive
  by_cases htr : (tp.truthy && threadKey != "") = true
  · simp only [htr, if_true]
    rcases hfr : (tp.overrideFor threadKey).holdUntil with _ | t
    · simp [hfr]
    · cases t with
      | valid t0 =>
        simp only [hfr]
        by_cases hlt : now < t0 <;> simp [hlt]
      | malformed => simp [hfr]
  · simp only [htr, if_false]
    have hkey : (threadKey != "") = true := by
      simp [bne_iff_ne, hk]
    have htp : tp.truthy = false := by
      cases h : tp.truthy
      · rfl
      · exact absurd (by simp [h, hkey]) htr
    have hov : tp.overrideFor threadKey = {} := by
      unfold TeamProgress.overrideFor
      have : tp.dialogueOverrides = [] := by
        unfold TeamProgress.truthy at htp
        cases hl : tp.dialogueOverrides
        · rfl
        · rw [hl] at htp; simp at htp
      simp [this]
    simp [hov, ThreadOverride.holdUntil]

/-- Witness for C2 at a concrete input: a force-revealed message is
visible despite an active hold and a future scheduled gate. -/
theorem gate_override_order_witness :
    ("intro" ≠ "") ∧
      checkConditions
        { id := 4, eventId := 1, threadId := 1,
          gateRules := some { conditionType := some "scheduled",
                              scheduledAt := some (TimeStr.valid 500) } }
        10 [] []
        { dialogueOverrides :=
            [("intro", { forceRevealMessageIds := [4],
                         holdUntil := some (TimeStr.valid 100) })] }
        "intro" =
      (if 4 ∈ [4] then true
       else if holdActive (some (TimeStr.valid 100)) 10 then false
       else gateRuleEval { conditionType := some "scheduled",
                           scheduledAt := some (TimeStr.valid 500) } 10 [] []) := by
  refine ⟨by decide, ?_⟩
  exact gate_override_order
    { id := 4, eventId := 1, threadId := 1,
      gateRules := some { conditionType := some "scheduled",
                          scheduledAt := some (TimeStr.valid 500) } }
    10 [] []
    { dialogueOverrides :=
        [("intro", { forceRevealMessageIds := [4],
                     holdUntil := some (TimeStr.valid 100) })] }
    "intro" (by decide)

/-- C5: a LEAKED thread is visible iff it has no StartConfig or is in the
team's unlock set; an INTERACTIVE thread is visible iff it both has a
StartConfig and is in the unlock set. -/
theorem thread_visibility_rule (threadId : Nat) (withConfig unlocked : List Nat) :
    (threadVisible threadId "LEAKED" withConfig unlocked = true ↔
      (threadId ∉ withConfig ∨ threadId ∈ unlocked)) ∧
    (threadVisible threadId "INTERACTIVE" withConfig unlocked = true ↔
      (threadId ∈ withConfig ∧ threadId ∈ unlocked)) := by
  constructor
  · unfold threadVisible
    have : (pyUpper "LEAKED" == "INTERACTIVE") = false := by decide
    simp [this]
  · unfold threadVisible
    have : (pyUpper "INTERACTIVE" == "INTERACTIVE") = true := by decide
    simp [this]


theorem freshCount_le_cons (msgs : List Msg) (mid : Nat) (visited : List Nat) :
    freshCount msgs (mid :: visited) ≤ freshCount msgs visited := by
  unfold freshCount
  refine Finset.card_le_card (Finset.sdiff_subset_sdiff le_rfl ?_)
  intro x hx
  simp only [List.toFinset_cons, Finset.mem_insert]
  right
  exact hx

theorem freshCount_cons_of_mem (msgs : List Msg) (mid : Nat) (visited : List Nat)
    (hmem : mid ∈ msgs.map Msg.id) (hfresh : mid ∉ visited) :
    freshCount msgs (mid :: visited) + 1 = freshCount msgs visited := by
  unfold freshCount
  have h1 : (mid :: visited).toFinset = insert mid visited.toFinset := by
    simp
  have h2 : idsF msgs \ insert mid visited.toFinset =
      (idsF msgs \ visited.toFinset).erase mid := by
    ext x
    simp only [Finset.mem_sdiff, Finset.mem_insert, Finset.mem_erase]
    tauto
  have hmid : mid ∈ idsF msgs \ visited.toFinset := by
    simp only [Finset.mem_sdiff, List.mem_toFinset]
    exact ⟨by simpa [idsF] using hmem, hfresh⟩
  rw [h1, h2, Finset.card_erase_of_mem hmid]
  have : 0 < (idsF msgs \ visited.toFinset).card := Finset.card_pos.2 ⟨mid, hmid⟩
  omega

theorem findMsg_mem_ids {msgs : List Msg} {mid : Nat} {m : Msg}
    (h : findMsg msgs mid = some m) : mid ∈ msgs.map Msg.id := by
  unfold findMsg at h
  have hm : m ∈ msgs := List.mem_of_find?_eq_some h
  have hp := List.find?_some h
  have hid : m.id = mid := by simpa using hp
  subst hid
  exact List.mem_map_of_mem Msg.id hm

/-- With fuel exceeding `queue.length + 2 * freshCount`, the walk never
runs out: the visited-set guard makes every iteration strictly shrink
that measure. -/
theorem walkAux_ne_none (ctx : WalkCtx) :
    ∀ (fuel : Nat) (queue visited visible : List Nat),
      queue.length + 2 * freshCount ctx.msgs visited < fuel →
      walkAux ctx fuel queue visited visible ≠ none := by
  intro fuel
  induction fuel with
  | zero => intro queue visited visible h; omega
  | succ fuel ih =>
    intro queue visited visible h heq
    match queue with
    | [] => simp [walkAux] at heq
    | mid :: rest =>
      have hlen : rest.length + 2 * freshCount ctx.msgs visited < fuel := by
        simp only [List.length_cons] at h; omega
      by_cases hv : mid ∈ visited
      · simp only [walkAux, hv, if_true] at heq
        exact ih rest visited visible hlen heq
      · simp only [walkAux, hv, if_false] at heq
        have hle := freshCount_le_cons ctx.msgs mid visited
        rcases hfind : findMsg ctx.msgs mid with _ | m <;> rw [hfind] at heq
        · exact ih rest (mid :: visited) visible (by omega) heq
        · have hdec := freshCount_cons_of_mem ctx.msgs mid visited
            (findMsg_mem_ids hfind) hv
          simp only at heq
          by_cases hskip : (!audienceOk m ctx.role || !ctx.check m) = true
          · rw [if_pos hskip] at heq
            exact ih rest (mid :: visited) visible (by omega) heq
          · rw [if_neg hskip] at heq
            rcases hopts : m.replyOptions.filter (fun o => truthyId o.nextMessageId) with
              _ | ⟨o, _ | ⟨o2, os⟩⟩ <;> rw [hopts] at heq <;> simp only at heq
            · exact ih rest (mid :: visited) (visible ++ [mid]) (by omega) heq
            · by_cases hq : (o.nextMessageId.getD 0 != 0 &&
                  !(o.nextMessageId.getD 0 ∈ mid :: visited : Bool)) = true
              · rw [if_pos hq] at heq
                exact ih (o.nextMessageId.getD 0 :: rest) (mid :: visited)
                  (visible ++ [mid]) (by simp only [List.length_cons]; omega) heq
              · rw [if_neg hq] at heq
                exact ih rest (mid :: visited) (visible ++ [mid]) (by omega) heq
            · by_cases hrep : (mid ∈ ctx.repliedIds && truthyGet (ctx.repliesByMsgGet mid)) = true
              · rw [if_pos hrep] at heq
                by_cases hq : ((((ctx.repliesByMsgGet mid).getD none).getD 0 != 0) &&
                    memberIds ctx.msgs (((ctx.repliesByMsgGet mid).getD none).getD 0) &&
                    !((((ctx.repliesByMsgGet mid).getD none).getD 0) ∈ mid :: visited : Bool)) = true
                · rw [if_pos hq] at heq
                  exact ih ((((ctx.repliesByMsgGet mid).getD none).getD 0) :: rest)
                    (mid :: visited) (visible ++ [mid])
                    (by simp only [List.length_cons]; omega) heq
                · rw [if_neg hq] at heq
                  exact ih rest (mid :: visited) (visible ++ [mid]) (by omega) heq
              · rw [if_neg hrep] at heq
                exact Option.noConfusion heq

/-- Every node the walk emits is fresh when emitted, so the output list
never repeats a node. -/
theorem walkAux_nodup (ctx : WalkCtx) :
    ∀ (fuel : Nat) (queue visited visible : List Nat) (r : WalkResult),
      (∀ x ∈ visible, x ∈ visited) → visible.Nodup →
      walkAux ctx fuel queue visited visible = some r →
      r.visibleIds.Nodup := by
  intro fuel
  induction fuel with
  | zero => intro _ _ _ _ _ _ h; simp [walkAux] at h
  | succ fuel ih =>
    intro queue visited visible r hsub hnd heq
    match queue with
    | [] =>
      simp only [walkAux] at heq
      cases heq
      exact hnd
    | mid :: rest =>
      by_cases hv : mid ∈ visited
      · simp only [walkAux, hv, if_true] at heq
        exact ih rest visited visible r hsub hnd heq
      · simp only [walkAux, hv, if_false] at heq
        have hsub' : ∀ x ∈ visible, x ∈ mid :: visited := by
          intro x hx; exact List.mem_cons_of_mem mid (hsub x hx)
        have hmidvis : mid ∉ visible := fun hx => hv (hsub mid hx)
        have hnd' : (visible ++ [mid]).Nodup := by
          simp [List.nodup_append, hnd, hmidvis]
        have hsub'' : ∀ x ∈ visible ++ [mid], x ∈ mid :: visited := by
          intro x hx
          rcases List.mem_append.1 hx with hx | hx
          · exact List.mem_cons_of_mem mid (hsub x hx)
          · simp only [List.mem_singleton] at hx
            subst hx
            exact List.mem_cons_self x visited
        rcases hfind : findMsg ctx.msgs mid with _ | m <;> rw [hfind] at heq
        · exact ih rest (mid :: visited) visible r hsub' hnd heq
        · simp only at heq
          by_cases hskip : (!audienceOk m ctx.role || !ctx.check m) = true
          · rw [if_pos hskip] at heq
            exact ih rest (mid :: visited) visible r hsub' hnd heq
          · rw [if_neg hskip] at heq
            rcases hopts : m.replyOptions.filter (fun o => truthyId o.nextMessageId) with
              _ | ⟨o, _ | ⟨o2, os⟩⟩ <;> rw [hopts] at heq <;> simp only at heq
            · exact ih rest (mid :: visited) (visible ++ [mid]) r hsub'' hnd' heq
            · by_cases hq : (o.nextMessageId.getD 0 != 0 &&
                  !(o.nextMessageId.getD 0 ∈ mid :: visited : Bool)) = true
              · rw [if_pos hq] at heq
                exact ih (o.nextMessageId.getD 0 :: rest) (mid :: visited)
                  (visible ++ [mid]) r hsub'' hnd' heq
              · rw [if_neg hq] at heq
                exact ih rest (mid :: visited) (visible ++ [mid]) r hsub'' hnd' heq
            · by_cases hrep : (mid ∈ ctx.repliedIds && truthyGet (ctx.repliesByMsgGet mid)) = true
              · rw [if_pos hrep] at heq
                by_cases hq : ((((ctx.repliesByMsgGet mid).getD none).getD 0 != 0) &&
                    memberIds ctx.msgs (((ctx.repliesByMsgGet mid).getD none).getD 0) &&
                    !((((ctx.repliesByMsgGet mid).getD none).getD 0) ∈ mid :: visited : Bool)) = true
                · rw [if_pos hq] at heq
                  exact ih ((((ctx.repliesByMsgGet mid).getD none).getD 0) :: rest)
                    (mid :: visited) (visible ++ [mid]) r hsub'' hnd' heq
                · rw [if_neg hq] at heq
                  exact ih rest (mid :: visited) (visible ++ [mid]) r hsub'' hnd' heq
              · rw [if_neg hrep] at heq
                cases heq
                exact hnd'

/-- C4: on every thread graph, cyclic ones included, a single traversal
call terminates (the stated fuel is never exhausted) and emits each node
at most once, thanks to the visited-set guard. -/
theorem traversal_cycle_safe (ctx : WalkCtx) (hne : ctx.msgs ≠ []) :
    ∃ r, dialogueWalk ctx = some r ∧ r.visibleIds.Nodup := by
  have hstart : ∃ s, startId ctx.msgs = some s := by
    unfold startId
    rcases hf : ctx.msgs.filter (fun m => !hasIncoming ctx.msgs m.id) with _ | ⟨c, cs⟩
    · rw [hf]
      rcases hm : ctx.msgs with _ | ⟨m0, ms⟩
      · exact absurd hm hne
      · exact ⟨_, rfl⟩
    · rw [hf]
      exact ⟨_, rfl⟩
  obtain ⟨s, hs⟩ := hstart
  have hcard : freshCount ctx.msgs [] ≤ ctx.msgs.length := by
    unfold freshCount idsF
    calc ((ctx.msgs.map Msg.id).toFinset \ ([] : List Nat).toFinset).card
        ≤ (ctx.msgs.map Msg.id).toFinset.card :=
          Finset.card_le_card Finset.sdiff_subset
      _ ≤ (ctx.msgs.map Msg.id).length := List.toFinset_card_le _
      _ = ctx.msgs.length := List.length_map _ _
  have hsome := walkAux_ne_none ctx (2 * ctx.msgs.length + 2) [s] [] []
    (by simp only [List.length_cons, List.length_nil]; omega)
  rcases hr : walkAux ctx (2 * ctx.msgs.length + 2) [s] [] [] with _ | r
  · exact absurd hr hsome
  · refine ⟨r, ?_, ?_⟩
    · unfold dialogueWalk
      rw [hs]
      exact hr
    · exact walkAux_nodup ctx (2 * ctx.msgs.length + 2) [s] [] [] r
        (by intro x hx; simp at hx) List.nodup_nil hr

/-- Witness for C4: the two-node back-edge graph from the spec (message 1
targets 2, message 2 targets 1) terminates and emits each node once. -/
theorem traversal_cycle_safe_witness :
    (let ctx : WalkCtx :=
      { msgs := [
          { id := 1, eventId := 1, threadId := 1, orderIndex := 0,
            replyOptions := [{ text := "go", nextMessageId := some 2 }] },
          { id := 2, eventId := 1, threadId := 1, orderIndex := 1,
            replyOptions := [{ text := "back", nextMessageId := some 1 }] }],
        role := "ROLE_A", now := 0, replies := [], visitedStationIds := [],
        threadKey := "t" }
     ctx.msgs ≠ [] ∧ ∃ r, dialogueWalk ctx = some r ∧ r.visibleIds.Nodup) := by
  refine ⟨by decide, ?_⟩
  exact traversal_cycle_safe _ (by decide)

theorem mem_repliedIds_of_get {ctx : WalkCtx} {mid : Nat} {v : Option Nat}
    (h : ctx.repliesByMsgGet mid = some v) : mid ∈ ctx.repliedIds := by
  unfold WalkCtx.repliesByMsgGet at h
  rcases hopt : (ctx.replies.filter (fun e => e.1 == mid)).getLast? with _ | e
  · rw [hopt] at h; simp at h
  · have hx : e ∈ (ctx.replies.filter (fun e => e.1 == mid)).getLast? := hopt
    obtain ⟨hne, hEq⟩ := List.mem_getLast?_eq_getLast hx
    have hmemf : e ∈ ctx.replies.filter (fun e => e.1 == mid) := by
      rw [hEq]; exact List.getLast_mem hne
    have hp := List.mem_filter.1 hmemf
    have hfst : e.1 = mid := by simpa using hp.2
    unfold WalkCtx.repliedIds
    rw [← hfst]
    exact List.mem_map_of_mem Prod.fst hp.1

/-- C3: at a visible node of the traversal, exactly one targeted reply
option auto-advances to its target with no reply required; with two or
more targeted options and a recorded reply, the walk resumes via the
most recent reply's target, ignoring the other options; with two or more
targeted options and no recorded reply, the node becomes the
pending-choice node and the walk stops at once, emitting nothing past
it. -/
theorem traversal_option_behaviour (ctx : WalkCtx) (fuel : Nat)
    (rest visited visible : List Nat) (mid : Nat) (m : Msg)
    (hfresh : mid ∉ visited)
    (hfind : findMsg ctx.msgs mid = some m)
    (haud : audienceOk m ctx.role = true)
    (hchk : ctx.check m = true) :
    (∀ o : ReplyOption,
      m.replyOptions.filter (fun o => truthyId o.nextMessageId) = [o] →
      o.nextMessageId.getD 0 ∉ mid :: visited →
      walkAux ctx (fuel + 1) (mid :: rest) visited visible =
        walkAux ctx fuel (o.nextMessageId.getD 0 :: rest) (mid :: visited)
          (visible ++ [mid])) ∧
    (∀ (o1 o2 : ReplyOption) (os : List ReplyOption) (t : Nat),
      m.replyOptions.filter (fun o => truthyId o.nextMessageId) = o1 :: o2 :: os →
      ctx.repliesByMsgGet mid = some (some t) → t ≠ 0 →
      memberIds ctx.msgs t = true → t ∉ mid :: visited →
      walkAux ctx (fuel + 1) (mid :: rest) visited visible =
        walkAux ctx fuel (t :: rest) (mid :: visited) (visible ++ [mid])) ∧
    (∀ (o1 o2 : ReplyOption) (os : List ReplyOption),
      m.replyOptions.filter (fun o => truthyId o.nextMessageId) = o1 :: o2 :: os →
      mid ∉ ctx.repliedIds →
      walkAux ctx (fuel + 1) (mid :: rest) visited visible =
        some ⟨visible ++ [mid], some mid⟩) := by
  have hskip : ¬((!audienceOk m ctx.role || !ctx.check m) = true) := by
    simp [haud, hchk]
  refine ⟨?_, ?_, ?_⟩
  · intro o h1 h2
    simp only [walkAux]
    rw [if_neg hfresh, hfind]
    simp only
    rw [if_neg hskip, h1]
    simp only
    have ho : o ∈ m.replyOptions.filter (fun o => truthyId o.nextMessageId) := by
      rw [h1]; exact List.mem_singleton_self o
    have htr : truthyId o.nextMessageId = true := (List.mem_filter.1 ho).2
    have hnid : (o.nextMessageId.getD 0 != 0) = true := by
      rcases hopt : o.nextMessageId with _ | n
      · rw [hopt] at htr; simp [truthyId] at htr
      · rw [hopt] at htr; simpa [truthyId] using htr
    rw [if_pos (by simp [hnid, h2])]
  · intro o1 o2 os t h1 hget ht0 hmm hnv
    simp only [walkAux]
    rw [if_neg hfresh, hfind]
    simp only
    rw [if_neg hskip, h1]
    simp only
    have hmem : mid ∈ ctx.repliedIds := mem_repliedIds_of_get hget
    rw [if_pos (by simp [hmem, hget, truthyGet, ht0])]
    rw [hget]
    simp only [Option.getD_some]
    rw [if_pos (by simp [ht0, hmm, hnv])]
  · intro o1 o2 os h1 hnr
    simp only [walkAux]
    rw [if_neg hfresh, hfind]
    simp only
    rw [if_neg hskip, h1]
    simp only
    rw [if_neg (by simp [hnr])]

/-- Witness for C3: on the concrete graph `brMsgs`, the single-option
node auto-advances, a recorded reply resumes through its target, and a
branch node with no reply becomes pending and ends the walk. -/
theorem traversal_option_behaviour_witness :
    (walkAux brCtx 5 [1] [] [] = walkAux brCtx 4 [2] [1] [1]) ∧
    (walkAux brCtxReplied 5 [2] [1] [1] = walkAux brCtxReplied 4 [4] [2, 1] [1, 2]) ∧
    (walkAux brCtx 5 [2] [1] [1] = some ⟨[1, 2], some 2⟩) := by
  refine ⟨?_, ?_, ?_⟩
  · exact (traversal_option_behaviour brCtx 4 [] [] [] 1
      { id := 1, eventId := 1, threadId := 1, orderIndex := 0,
        replyOptions := [{ text := "go", nextMessageId := some 2 }] }
      (by decide) (by decide) (by decide) (by decide)).1
      { text := "go", nextMessageId := some 2 } (by decide) (by decide)
  · exact (traversal_option_behaviour brCtxReplied 4 [] [1] [1] 2
      { id := 2, eventId := 1, threadId := 1, orderIndex := 1,
        replyOptions := [{ text := "a", nextMessageId := some 3 },
                         { text := "b", nextMessageId := some 4 }] }
      (by decide) (by decide) (by decide) (by decide)).2.1
      { text := "a", nextMessageId := some 3 }
      { text := "b", nextMessageId := some 4 } [] 4
      (by decide) (by decide) (by decide) (by decide) (by decide)
  · exact (traversal_option_behaviour brCtx 4 [] [1] [1] 2
      { id := 2, eventId := 1, threadId := 1, orderIndex := 1,
        replyOptions := [{ text := "a", nextMessageId := some 3 },
                         { text := "b", nextMessageId := some 4 }] }
      (by decide) (by decide) (by decide) (by decide)).2.2
      { text := "a", nextMessageId := some 3 }
      { text := "b", nextMessageId := some 4 } []
      (by decide) (by decide)

/-- Helper: the id path of `dialogue_reply` writes its row whenever the
named thread is found, both posted ids are truthy, the source message
exists in the event and the target exists in the named thread. -/
theorem reply_write_id_path (db : Db) (eventId playerId : Nat) (key : String)
    (form : ReplyForm) (now : Int) (thread : Thread) (sm nm : Msg)
    (hth : findThreadByKey db.threads eventId key = some thread)
    (hm1 : truthyId form.messageId = true)
    (hm2 : truthyId form.nextMessageId = true)
    (hsm : db.msgs.find? (fun m => m.id == form.messageId.getD 0 &&
      msgThreadInEvent db.threads m eventId) = some sm)
    (hnm : db.msgs.find? (fun m => m.id == form.nextMessageId.getD 0 &&
      m.threadId == thread.id) = some nm) :
    dialogueReplyWrite db eventId playerId key form now =
      some ⟨eventId, playerId, sm.id, form.message, some nm.id, now⟩ := by
  unfold dialogueReplyWrite
  rw [hth, Option.some_bind]
  rw [if_pos (by simp [hm1, hm2])]
  rw [hnm, hsm]

/-- C10: when the posted ids are nonzero, the named thread exists in the
event, the source id names a message anywhere in the event and the
target id names a message of the named thread, the endpoint persists a
Reply row — and it never consults the unlock set, the recorded replies,
the pending triggers or the teams' override bags, so its outcome is
invariant under arbitrary changes to those parts of the store. -/
theorem reply_no_visibility_checks (db : Db) (eventId playerId : Nat)
    (key : String) (form : ReplyForm) (now : Int) (thread : Thread) (sm nm : Msg)
    (hth : findThreadByKey db.threads eventId key = some thread)
    (hm1 : truthyId form.messageId = true)
    (hm2 : truthyId form.nextMessageId = true)
    (hsm : db.msgs.find? (fun m => m.id == form.messageId.getD 0 &&
      msgThreadInEvent db.threads m eventId) = some sm)
    (hnm : db.msgs.find? (fun m => m.id == form.nextMessageId.getD 0 &&
      m.threadId == thread.id) = some nm) :
    dialogueReplyWrite db eventId playerId key form now =
      some ⟨eventId, playerId, sm.id, form.message, some nm.id, now⟩ ∧
    (∀ (u : List (Nat × Nat)) (rws : List ReplyRow) (tg : List TriggerRow)
        (tm : List TeamRec),
      dialogueReplyWrite
          { db with unlocks := u, replies := rws, triggers := tg, teams := tm }
          eventId playerId key form now =
        dialogueReplyWrite db eventId playerId key form now) := by
  refine ⟨reply_write_id_path db eventId playerId key form now thread sm nm
    hth hm1 hm2 hsm hnm, ?_⟩
  intro u rws tg tm
  rfl

/-- Witness for C10: in `replyDb` the INTERACTIVE thread `"a"` has no
unlock at all, message 4 sits in another thread and offers no options,
yet the reply row is persisted. -/
theorem reply_no_visibility_checks_witness :
    dialogueReplyWrite replyDb 1 9 "a"
        { message := "hi", messageId := some 4, nextMessageId := some 2 } 100 =
      some ⟨1, 9, 4, "hi", some 2, 100⟩ ∧
    (∀ (u : List (Nat × Nat)) (rws : List ReplyRow) (tg : List TriggerRow)
        (tm : List TeamRec),
      dialogueReplyWrite
          { replyDb with unlocks := u, replies := rws, triggers := tg, teams := tm }
          1 9 "a" { message := "hi", messageId := some 4, nextMessageId := some 2 } 100 =
        dialogueReplyWrite replyDb 1 9 "a"
          { message := "hi", messageId := some 4, nextMessageId := some 2 } 100) :=
  reply_no_visibility_checks replyDb 1 9 "a"
    { message := "hi", messageId := some 4, nextMessageId := some 2 } 100
    { id := 1, eventId := 1, key := "a", type := "INTERACTIVE" }
    { id := 4, eventId := 1, threadId := 3 }
    { id := 2, eventId := 1, threadId := 1 }
    (by decide) (by decide) (by decide) (by decide) (by decide)

/-- C6 counterexample: posting source id 4 and target id 2 to thread
`"a"` of `replyDb` writes a Reply row even though message 4 belongs to a
different thread and has no reply options, so the chosen target is not
an option of the source; the claim's "otherwise no Reply row is
written" fails here. -/
theorem reply_validation_counterexample :
    dialogueReplyWrite replyDb 1 9 "a"
        { message := "hi", messageId := some 4, nextMessageId := some 2 } 100 =
      some ⟨1, 9, 4, "hi", some 2, 100⟩ ∧
    (replyDb.msgs.find? (fun m => m.id == 4)).map Msg.replyOptions = some [] ∧
    (replyDb.msgs.find? (fun m => m.id == 4)).map Msg.threadId = some 3 ∧
    (findThreadByKey replyDb.threads 1 "a").map Thread.id = some 1 := by
  refine ⟨by decide, by decide, by decide, by decide⟩

/-- C6 (amended): with nonzero posted ids, the named thread found, and
the target id naming a message of that thread, a Reply row is persisted
exactly when the source id names any message of the player's event;
neither membership of the target among the source's options nor the
source belonging to the named thread is checked. -/
theorem reply_persistence_characterization (db : Db) (eventId playerId : Nat)
    (key : String) (form : ReplyForm) (now : Int) (thread : Thread) (nm : Msg)
    (hth : findThreadByKey db.threads eventId key = some thread)
    (hm1 : truthyId form.messageId = true)
    (hm2 : truthyId form.nextMessageId = true)
    (hnm : db.msgs.find? (fun m => m.id == form.nextMessageId.getD 0 &&
      m.threadId == thread.id) = some nm) :
    (dialogueReplyWrite db eventId playerId key form now).isSome =
      (db.msgs.find? (fun m => m.id == form.messageId.getD 0 &&
        msgThreadInEvent db.threads m eventId)).isSome := by
  unfold dialogueReplyWrite
  rw [hth, Option.some_bind]
  rw [if_pos (by simp [hm1, hm2])]
  rw [hnm]
  rcases hsm : db.msgs.find? (fun m => m.id == form.messageId.getD 0 &&
      msgThreadInEvent db.threads m eventId) with _ | sm <;> rw [hsm] <;> rfl

/-- Witness for C6's amended statement: in `replyDb` the target exists
in thread `"a"` and the source exists in the event, so both sides of the
characterization evaluate to `true`. -/
theorem reply_persistence_characterization_witness :
    (dialogueReplyWrite replyDb 1 9 "a"
        { message := "hi", messageId := some 4, nextMessageId := some 2 } 100).isSome =
      (replyDb.msgs.find? (fun m => m.id == (some (4 : Nat)).getD 0 &&
        msgThreadInEvent replyDb.threads m 1)).isSome :=
  reply_persistence_characterization replyDb 1 9 "a"
    { message := "hi", messageId := some 4, nextMessageId := some 2 } 100
    { id := 1, eventId := 1, key := "a", type := "INTERACTIVE" }
    { id := 2, eventId := 1, threadId := 1 }
    (by decide) (by decide) (by decide) (by decide)

theorem playerReplyPairs_append (rows extra : List ReplyRow) (pid eid : Nat) :
    playerReplyPairs (rows ++ extra) pid eid =
      playerReplyPairs rows pid eid ++ playerReplyPairs extra pid eid := by
  simp [playerReplyPairs, List.filter_append]

theorem repliesByMsgLookup_append_two (B : List (Nat × Option Nat)) (mid : Nat)
    (x1 x2 : Option Nat) :
    repliesByMsgLookup (B ++ [(mid, x1), (mid, x2)]) mid = some x2 := by
  unfold repliesByMsgLookup
  rw [List.filter_append]
  have hfl : List.filter (fun e => e.1 == mid) [(mid, x1), (mid, x2)] =
      [(mid, x1), (mid, x2)] := by simp
  rw [hfl, List.getLast?_append_of_ne_nil _ (by simp)]
  rfl

/-- C8: re-invoking the reply endpoint for the same (player, message)
pair appends a second Reply row after the first — the earlier row is
neither overwritten nor deleted — carrying the later timestamp, and the
replies-by-message dict the traversal builds then resolves that message
to the most recent reply's target. -/
theorem reply_append_and_most_recent (db : Db) (eventId playerId : Nat)
    (key : String) (form1 form2 : ReplyForm) (now1 now2 : Int)
    (thread : Thread) (sm1 nm1 sm2 nm2 : Msg)
    (hth : findThreadByKey db.threads eventId key = some thread)
    (h11 : truthyId form1.messageId = true)
    (h12 : truthyId form1.nextMessageId = true)
    (h21 : truthyId form2.messageId = true)
    (h22 : truthyId form2.nextMessageId = true)
    (hsm1 : db.msgs.find? (fun m => m.id == form1.messageId.getD 0 &&
      msgThreadInEvent db.threads m eventId) = some sm1)
    (hnm1 : db.msgs.find? (fun m => m.id == form1.nextMessageId.getD 0 &&
      m.threadId == thread.id) = some nm1)
    (hsm2 : db.msgs.find? (fun m => m.id == form2.messageId.getD 0 &&
      msgThreadInEvent db.threads m eventId) = some sm2)
    (hnm2 : db.msgs.find? (fun m => m.id == form2.nextMessageId.getD 0 &&
      m.threadId == thread.id) = some nm2)
    (hsame : sm2.id = sm1.id) (hnow : now1 < now2) :
    ((dialogueReplyRun (dialogueReplyRun db eventId playerId key form1 now1).1
        eventId playerId key form2 now2).1).replies =
      db.replies ++
        [⟨eventId, playerId, sm1.id, form1.message, some nm1.id, now1⟩,
         ⟨eventId, playerId, sm2.id, form2.message, some nm2.id, now2⟩] ∧
    (⟨eventId, playerId, sm1.id, form1.message, some nm1.id, now1⟩ : ReplyRow).repliedAt <
      (⟨eventId, playerId, sm2.id, form2.message, some nm2.id, now2⟩ : ReplyRow).repliedAt ∧
    repliesByMsgLookup
      (playerReplyPairs
        ((dialogueReplyRun (dialogueReplyRun db eventId playerId key form1 now1).1
            eventId playerId key form2 now2).1).replies playerId eventId)
      sm1.id = some (some nm2.id) := by
  have hw1 := reply_write_id_path db eventId playerId key form1 now1 thread sm1 nm1
    hth h11 h12 hsm1 hnm1
  have hrun1 : (dialogueReplyRun db eventId playerId key form1 now1).1 =
      { db with replies := db.replies ++
          [⟨eventId, playerId, sm1.id, form1.message, some nm1.id, now1⟩] } := by
    unfold dialogueReplyRun
    rw [hw1]
  have hw2 := reply_write_id_path
    { db with replies := db.replies ++
        [⟨eventId, playerId, sm1.id, form1.message, some nm1.id, now1⟩] }
    eventId playerId key form2 now2 thread sm2 nm2 hth h21 h22 hsm2 hnm2
  have hrun2 : (dialogueReplyRun
      { db with replies := db.replies ++
          [⟨eventId, playerId, sm1.id, form1.message, some nm1.id, now1⟩] }
      eventId playerId key form2 now2).1 =
      { db with replies := (db.replies ++
          [⟨eventId, playerId, sm1.id, form1.message, some nm1.id, now1⟩]) ++
          [⟨eventId, playerId, sm2.id, form2.message, some nm2.id, now2⟩] } := by
    unfold dialogueReplyRun
    rw [hw2]
  rw [hrun1, hrun2]
  refine ⟨by simp, hnow, ?_⟩
  have hpairs : playerReplyPairs ((db.replies ++
      [⟨eventId, playerId, sm1.id, form1.message, some nm1.id, now1⟩]) ++
      [⟨eventId, playerId, sm2.id, form2.message, some nm2.id, now2⟩])
      playerId eventId =
      playerReplyPairs db.replies playerId eventId ++
        [(sm1.id, some nm1.id), (sm2.id, some nm2.id)] := by
    rw [List.append_assoc, playerReplyPairs_append]
    simp [playerReplyPairs]
  show repliesByMsgLookup (playerReplyPairs ((db.replies ++ _) ++ _) playerId eventId)
      sm1.id = some (some nm2.id)
  rw [hpairs, hsame]
  exact repliesByMsgLookup_append_two _ sm1.id _ _

/-- Witness for C8 at a concrete store: two successive replies to
message 4 of `replyDb` accumulate both rows and the lookup returns the
second target. -/
theorem reply_append_and_most_recent_witness :
    ((dialogueReplyRun (dialogueReplyRun replyDb 1 9 "a"
          { message := "x", messageId := some 4, nextMessageId := some 2 } 10).1
        1 9 "a" { message := "y", messageId := some 4, nextMessageId := some 2 } 20).1).replies =
      replyDb.replies ++
        [⟨1, 9, 4, "x", some 2, 10⟩, ⟨1, 9, 4, "y", some 2, 20⟩] ∧
    (⟨1, 9, 4, "x", some 2, 10⟩ : ReplyRow).repliedAt <
      (⟨1, 9, 4, "y", some 2, 20⟩ : ReplyRow).repliedAt ∧
    repliesByMsgLookup
      (playerReplyPairs
        ((dialogueReplyRun (dialogueReplyRun replyDb 1 9 "a"
              { message := "x", messageId := some 4, nextMessageId := some 2 } 10).1
            1 9 "a" { message := "y", messageId := some 4, nextMessageId := some 2 } 20).1).replies
        9 1) 4 = some (some 2) :=
  reply_append_and_most_recent replyDb 1 9 "a"
    { message := "x", messageId := some 4, nextMessageId := some 2 }
    { message := "y", messageId := some 4, nextMessageId := some 2 } 10 20
    { id := 1, eventId := 1, key := "a", type := "INTERACTIVE" }
    { id := 4, eventId := 1, threadId := 3 } { id := 2, eventId := 1, threadId := 1 }
    { id := 4, eventId := 1, threadId := 3 } { id := 2, eventId := 1, threadId := 1 }
    (by decide) (by decide) (by decide) (by decide) (by decide)
    (by decide) (by decide) (by decide) (by decide) (by decide) (by decide)

/-- C9 counterexample: the transitions job consumes (deletes) the first
trigger when converting it into a ThreadUnlock, and the trigger-creation
block checks only the trigger table, so re-visiting the same output
afterwards creates a second TransitionTrigger row for the very same
(source message, target thread, team) transition. -/
theorem trigger_recreated_counterexample :
    (createTriggers 1 7 1 0 [trigMsg] trigDb).triggers =
      [⟨1, 7, 5, 2, 10⟩] ∧
    (processTransitions 10 (createTriggers 1 7 1 0 [trigMsg] trigDb)).triggers = [] ∧
    (2, 7) ∈ (processTransitions 10 (createTriggers 1 7 1 0 [trigMsg] trigDb)).unlocks ∧
    (createTriggers 1 7 1 20 [trigMsg]
        (processTransitions 10 (createTriggers 1 7 1 0 [trigMsg] trigDb))).triggers =
      [⟨1, 7, 5, 2, 30⟩] := by
  refine ⟨by decide, by decide, by decide, by decide⟩

/-- C9 (amended): for an emitted node with a trigger annotation, a
TransitionTrigger with `unlock_at = now + configured delay` is recorded
exactly when no trigger row currently exists for that (team, source
message, target thread) — completed transitions are not consulted, so
after the scheduler consumes a trigger a re-visit records a fresh one,
which the transitions job then discards without a second unlock because
the ThreadUnlock row already exists. -/
theorem trigger_creation_guard (db : Db) (eventId teamId curThreadId : Nat)
    (now : Int) (m : Msg) (tr : TriggerDialogue) (ref : ThreadRef) (tt : Thread)
    (htr : m.triggerDialogue = some tr) (href : tr.target = some ref)
    (hd : 0 ≤ tr.delayMinutes)
    (hres : resolveTargetThread db eventId ref = some tt)
    (hneq : (tt.id == curThreadId) = false) :
    (db.triggers.any (fun g => g.teamId == teamId && g.sourceMessageId == m.id &&
        g.targetThreadId == tt.id) = true →
      processTriggerMsg eventId teamId curThreadId now db m = db) ∧
    (db.triggers.any (fun g => g.teamId == teamId && g.sourceMessageId == m.id &&
        g.targetThreadId == tt.id) = false →
      (processTriggerMsg eventId teamId curThreadId now db m).triggers =
        db.triggers ++ [⟨eventId, teamId, m.id, tt.id, now + tr.delayMinutes⟩]) ∧
    (∀ (dbX : Db) (g : TriggerRow),
      dbX.unlocks.any (fun u => u.1 == g.targetThreadId && u.2 == g.teamId) = true →
      transStep dbX g = { dbX with triggers := dbX.triggers.erase g }) := by
  obtain ⟨mid, mev, mth, maud, mord, mopts, mtrig, mgates⟩ := m
  simp only at htr
  subst htr
  obtain ⟨target, mdelay⟩ := tr
  simp only at href
  subst href
  simp only at hd
  refine ⟨?_, ?_, ?_⟩
  · intro hex
    simp only [processTriggerMsg]
    rw [if_neg (by omega), hres]
    simp only
    rw [if_neg (by simp [hneq])]
    simp only at hex
    rw [if_pos hex]
  · intro hex
    simp only [processTriggerMsg]
    rw [if_neg (by omega), hres]
    simp only
    rw [if_neg (by simp [hneq])]
    simp only at hex
    rw [if_neg (by simp [hex])]
  · intro dbX g hu
    unfold transStep
    rw [if_pos hu]

/-- Witness for C9's amended statement: in `trigDb` the first visit adds
the trigger, a second call with the row present is a no-op, and an
elapsed trigger whose unlock already exists is discarded unchanged. -/
theorem trigger_creation_guard_witness :
    ((createTriggers 1 7 1 0 [trigMsg] trigDb).triggers.any
        (fun g => g.teamId == 7 && g.sourceMessageId == 5 &&
          g.targetThreadId == 2) = true →
      processTriggerMsg 1 7 1 0 (createTriggers 1 7 1 0 [trigMsg] trigDb) trigMsg =
        createTriggers 1 7 1 0 [trigMsg] trigDb) ∧
    (trigDb.triggers.any (fun g => g.teamId == 7 && g.sourceMessageId == 5 &&
        g.targetThreadId == 2) = false →
      (processTriggerMsg 1 7 1 0 trigDb trigMsg).triggers =
        trigDb.triggers ++ [⟨1, 7, 5, 2, 10⟩]) ∧
    ((processTransitions 10 (createTriggers 1 7 1 0 [trigMsg] trigDb)).unlocks.any
        (fun u => u.1 == (2 : Nat) && u.2 == (7 : Nat)) = true →
      transStep (processTransitions 10 (createTriggers 1 7 1 0 [trigMsg] trigDb))
          ⟨1, 7, 5, 2, 30⟩ =
        { processTransitions 10 (createTriggers 1 7 1 0 [trigMsg] trigDb) with
            triggers := (processTransitions 10
              (createTriggers 1 7 1 0 [trigMsg] trigDb)).triggers.erase
                ⟨1, 7, 5, 2, 30⟩ }) := by
  refine ⟨?_, ?_, ?_⟩
  · exact (trigger_creation_guard (createTriggers 1 7 1 0 [trigMsg] trigDb) 1 7 1 0
      trigMsg { target := some (ThreadRef.byKey "b"), delayMinutes := 10 }
      (ThreadRef.byKey "b") { id := 2, eventId := 1, key := "b" }
      (by decide) (by decide) (by decide) (by decide) (by decide)).1
  · exact (trigger_creation_guard trigDb 1 7 1 0
      trigMsg { target := some (ThreadRef.byKey "b"), delayMinutes := 10 }
      (ThreadRef.byKey "b") { id := 2, eventId := 1, key := "b" }
      (by decide) (by decide) (by decide) (by decide) (by decide)).2.1
  · intro hu
    exact (trigger_creation_guard trigDb 1 7 1 0
      trigMsg { target := some (ThreadRef.byKey "b"), delayMinutes := 10 }
      (ThreadRef.byKey "b") { id := 2, eventId := 1, key := "b" }
      (by decide) (by decide) (by decide) (by decide) (by decide)).2.2
      (processTransitions 10 (createTriggers 1 7 1 0 [trigMsg] trigDb))
      ⟨1, 7, 5, 2, 30⟩ hu

theorem foldl_invariant {α β : Type _} (P : β → Prop) (f : β → α → β) :
    ∀ (l : List α) (s : β), (∀ s x, x ∈ l → P s → P (f s x)) → P s → P (l.foldl f s) := by
  intro l
  induction l with
  | nil => intro s _ hP; exact hP
  | cons x xs ih =>
    intro s hstep hP
    exact ih (f s x) (fun s' y hy hP' => hstep s' y (List.mem_cons_of_mem x hy) hP')
      (hstep s x (List.mem_cons_self x xs) hP)

theorem foldl_rel {α β : Type _} (R : β → β → Prop) (f g : β → α → β)
    (hstep : ∀ s1 s2 x, R s1 s2 → R (f s1 x) (g s2 x)) :
    ∀ (l : List α) (s1 s2 : β), R s1 s2 → R (l.foldl f s1) (l.foldl g s2) := by
  intro l
  induction l with
  | nil => intro s1 s2 h; exact h
  | cons x xs ih => intro s1 s2 h; exact ih (f s1 x) (g s2 x) (hstep s1 s2 x h)

theorem anyPair_iff (l : List (Nat × Nat)) (a b : Nat) :
    (l.any (fun d => d.1 == a && d.2 == b) = true) ↔ (a, b) ∈ l := by
  rw [List.any_eq_true]
  constructor
  · rintro ⟨d, hd, hp⟩
    simp only [Bool.and_eq_true, beq_iff_eq] at hp
    rw [← hp.1, ← hp.2]
    simpa using hd
  · intro h
    exact ⟨(a, b), h, by simp⟩

theorem schedProcessTeam_static (f : Nat → Bool) (m : Msg) (s : Db) (t : TeamRec) (db : Db)
    (h : SchedStatic db s) : SchedStatic db (schedProcessTeam f m s t) := by
  obtain ⟨h1, h2, h3, h4⟩ := h
  refine ⟨?_, ?_, ?_, ?_⟩ <;> (unfold schedProcessTeam; split)
  · exact h1
  · exact h1
  · exact h2
  · exact h2
  · exact h3
  · exact h3
  · exact h4
  · exact h4

theorem schedProcessMsg_static (f : Nat → Bool) (now : Int) (s : Db) (m : Msg) (db : Db)
    (h : SchedStatic db s) : SchedStatic db (schedProcessMsg f now s m) := by
  unfold schedProcessMsg
  split
  · exact foldl_invariant (SchedStatic db) (schedProcessTeam f m) _ s
      (fun s' x _ hP => schedProcessTeam_static f m s' x db hP) h
  · exact h

theorem sched_run_static (f : Nat → Bool) (now : Int) (db : Db) :
    SchedStatic db (processScheduledDialogues f now db) := by
  unfold processScheduledDialogues
  exact foldl_invariant (SchedStatic db) (schedProcessMsg f now) db.msgs db
    (fun s' x _ hP => schedProcessMsg_static f now s' x db hP) ⟨rfl, rfl, rfl, rfl⟩

theorem schedProcessTeam_mem_mono (f : Nat → Bool) (m : Msg) (s : Db) (t : TeamRec)
    (a b : Nat) (h : (a, b) ∈ s.deliveries) :
    (a, b) ∈ (schedProcessTeam f m s t).deliveries := by
  unfold schedProcessTeam
  split
  · exact h
  · exact List.mem_append_left _ h

theorem schedProcessMsg_mem_mono (f : Nat → Bool) (now : Int) (s : Db) (m : Msg)
    (a b : Nat) (h : (a, b) ∈ s.deliveries) :
    (a, b) ∈ (schedProcessMsg f now s m).deliveries := by
  unfold schedProcessMsg
  split
  · exact foldl_invariant (fun s' => (a, b) ∈ s'.deliveries) (schedProcessTeam f m) _ s
      (fun s' x _ hP => schedProcessTeam_mem_mono f m s' x a b hP) h
  · exact h

theorem sched_team_complete (f : Nat → Bool) (m : Msg) (t : TeamRec) :
    ∀ (lt : List TeamRec) (s : Db), t ∈ lt →
      (m.id, t.id) ∈ (lt.foldl (schedProcessTeam f m) s).deliveries := by
  intro lt
  induction lt with
  | nil => intro s h; simp at h
  | cons x xs ih =>
    intro s hmem
    rcases List.mem_cons.1 hmem with hEq | hmem'
    · subst hEq
      have h1 : (m.id, t.id) ∈ (schedProcessTeam f m s t).deliveries := by
        unfold schedProcessTeam
        by_cases hg : (s.deliveries.any (fun d => d.1 == m.id && d.2 == t.id)) = true
        · rw [if_pos hg]
          exact (anyPair_iff _ _ _).1 hg
        · rw [if_neg hg]
          exact List.mem_append_right _ (List.mem_singleton_self _)
      exact foldl_invariant (fun s' => (m.id, t.id) ∈ s'.deliveries)
        (schedProcessTeam f m) xs _
        (fun s' y _ hP => schedProcessTeam_mem_mono f m s' y m.id t.id hP) h1
    · exact ih (schedProcessTeam f m s x) hmem'

theorem sched_run_complete (f : Nat → Bool) (now : Int) (db : Db) (m : Msg) (t : TeamRec)
    (hm : m ∈ db.msgs) (ht : t ∈ db.teams) (hev : t.eventId = m.eventId)
    (hel : schedEligible db now m = true) :
    (m.id, t.id) ∈ (processScheduledDialogues f now db).deliveries := by
  unfold processScheduledDialogues
  suffices haux : ∀ (lm : List Msg) (s : Db), m ∈ lm → SchedStatic db s →
      (m.id, t.id) ∈ ((lm.foldl (schedProcessMsg f now) s).deliveries) by
    exact haux db.msgs db hm ⟨rfl, rfl, rfl, rfl⟩
  intro lm
  induction lm with
  | nil => intro s h _; simp at h
  | cons x xs ih =>
    intro s hmem hst
    rcases List.mem_cons.1 hmem with hEq | hmem'
    · subst hEq
      have h1 : (m.id, t.id) ∈ (schedProcessMsg f now s m).deliveries := by
        unfold schedProcessMsg
        have hel' : schedEligible s now m = true := by
          unfold schedEligible at hel ⊢
          rw [hst.1]
          exact hel
        rw [if_pos hel']
        have htf : t ∈ s.teams.filter (fun t' => t'.eventId == m.eventId) := by
          rw [hst.2.2.1]
          exact List.mem_filter.2 ⟨ht, by simp [hev]⟩
        exact sched_team_complete f m t _ s htf
      exact foldl_invariant (fun s' => (m.id, t.id) ∈ s'.deliveries)
        (schedProcessMsg f now) xs _
        (fun s' y _ hP => schedProcessMsg_mem_mono f now s' y m.id t.id hP) h1
    · exact ih (schedProcessMsg f now s x) hmem'
        (schedProcessMsg_static f now s x db hst)

theorem pair_beq_false {a1 b1 a2 b2 : Nat} (h : ¬(a1 = a2 ∧ b1 = b2)) :
    ((a1 == a2 : Bool) && (b1 == b2)) = false := by
  rcases Decidable.em (a1 = a2) with e1 | e1
  · rcases Decidable.em (b1 = b2) with e2 | e2
    · exact absurd ⟨e1, e2⟩ h
    · simp [e2]
  · simp [e1]

theorem sched_team_skip (f : Nat → Bool) (m' : Msg) (s : Db) (t' : TeamRec) (a b : Nat)
    (h : (a, b) ∈ s.deliveries) :
    countD (schedProcessTeam f m' s t') a b = countD s a b ∧
    pushesFor (schedProcessTeam f m' s t') a b = pushesFor s a b := by
  unfold schedProcessTeam
  by_cases hg : (s.deliveries.any (fun d => d.1 == m'.id && d.2 == t'.id)) = true
  · rw [if_pos hg]
    exact ⟨rfl, rfl⟩
  · rw [if_neg hg]
    have hne : ¬(m'.id = a ∧ t'.id = b) := by
      rintro ⟨h1, h2⟩
      apply hg
      rw [anyPair_iff, h1, h2]
      exact h
    have hpx := pair_beq_false hne
    constructor
    · unfold countD
      simp only [List.filter_append, List.length_append]
      have hnil : List.filter (fun d => d.1 == a && d.2 == b) [(m'.id, t'.id)] = [] := by
        simp only [List.filter]
        rw [hpx]
      rw [hnil]
      simp
    · unfold pushesFor
      simp only [List.filter_append]
      have hnil : List.filter (fun p => p.messageId == a && p.teamId == b)
          (((schedRecipients s m' t'.id).filter (fun p => p.tgId != 0)).map
            (fun p => { tgId := p.tgId, messageId := m'.id, teamId := t'.id,
                        ok := f p.tgId : Push })) = [] := by
        rw [List.filter_map]
        have hcomp : ((fun p : Push => p.messageId == a && p.teamId == b) ∘
            (fun p : PlayerRec => { tgId := p.tgId, messageId := m'.id,
                                    teamId := t'.id,
                                    ok := f p.tgId : Push })) = fun _ => false := by
          funext p
          exact hpx
        rw [hcomp]
        simp
      rw [hnil]
      simp

theorem sched_msg_skip (f : Nat → Bool) (now : Int) (s : Db) (m' : Msg) (a b : Nat)
    (h : (a, b) ∈ s.deliveries) :
    countD (schedProcessMsg f now s m') a b = countD s a b ∧
    pushesFor (schedProcessMsg f now s m') a b = pushesFor s a b := by
  unfold schedProcessMsg
  split
  · have := foldl_invariant (fun s' => countD s' a b = countD s a b ∧
        pushesFor s' a b = pushesFor s a b ∧ (a, b) ∈ s'.deliveries)
      (schedProcessTeam f m')
      (s.teams.filter (fun t => t.eventId == m'.eventId)) s
      (fun s' x _ hP => by
        have hsk := sched_team_skip f m' s' x a b hP.2.2
        exact ⟨hsk.1.trans hP.1, hsk.2.trans hP.2.1,
          schedProcessTeam_mem_mono f m' s' x a b hP.2.2⟩)
      ⟨rfl, rfl, h⟩
    exact ⟨this.1, this.2.1⟩
  · exact ⟨rfl, rfl⟩

theorem sched_run_skip (f : Nat → Bool) (now : Int) (db : Db) (a b : Nat)
    (h : (a, b) ∈ db.deliveries) :
    countD (processScheduledDialogues f now db) a b = countD db a b ∧
    pushesFor (processScheduledDialogues f now db) a b = pushesFor db a b := by
  unfold processScheduledDialogues
  have := foldl_invariant (fun s' => countD s' a b = countD db a b ∧
      pushesFor s' a b = pushesFor db a b ∧ (a, b) ∈ s'.deliveries)
    (schedProcessMsg f now) db.msgs db
    (fun s' x _ hP => by
      have hsk := sched_msg_skip f now s' x a b hP.2.2
      exact ⟨hsk.1.trans hP.1, hsk.2.trans hP.2.1,
        schedProcessMsg_mem_mono f now s' x a b hP.2.2⟩)
    ⟨rfl, rfl, h⟩
  exact ⟨this.1, this.2.1⟩

theorem sched_team_step_other (f : Nat → Bool) (m' : Msg) (s : Db) (t' : TeamRec)
    (a b : Nat) (hne : ¬(m'.id = a ∧ t'.id = b)) :
    countD (schedProcessTeam f m' s t') a b = countD s a b ∧
    pushesFor (schedProcessTeam f m' s t') a b = pushesFor s a b ∧
    ((a, b) ∈ (schedProcessTeam f m' s t').deliveries ↔ (a, b) ∈ s.deliveries) := by
  unfold schedProcessTeam
  by_cases hg : (s.deliveries.any (fun d => d.1 == m'.id && d.2 == t'.id)) = true
  · rw [if_pos hg]
    exact ⟨rfl, rfl, Iff.rfl⟩
  · rw [if_neg hg]
    have hpx := pair_beq_false hne
    refine ⟨?_, ?_, ?_⟩
    · unfold countD
      simp only [List.filter_append, List.length_append]
      have hnil : List.filter (fun d => d.1 == a && d.2 == b) [(m'.id, t'.id)] = [] := by
        simp only [List.filter]
        rw [hpx]
      rw [hnil]
      simp
    · unfold pushesFor
      simp only [List.filter_append]
      have hnil : List.filter (fun p => p.messageId == a && p.teamId == b)
          (((schedRecipients s m' t'.id).filter (fun p => p.tgId != 0)).map
            (fun p => { tgId := p.tgId, messageId := m'.id, teamId := t'.id,
                        ok := f p.tgId : Push })) = [] := by
        rw [List.filter_map]
        have hcomp : ((fun p : Push => p.messageId == a && p.teamId == b) ∘
            (fun p : PlayerRec => { tgId := p.tgId, messageId := m'.id,
                                    teamId := t'.id,
                                    ok := f p.tgId : Push })) = fun _ => false := by
          funext p
          exact hpx
        rw [hcomp]
        simp
      rw [hnil]
      simp
    · simp only [List.mem_append, List.mem_singleton]
      constructor
      · rintro (hmem | hEq)
        · exact hmem
        · have := Prod.mk.injEq a b m'.id t'.id ▸ hEq
          simp only [Prod.mk.injEq] at hEq
          exact absurd ⟨hEq.1.symm, hEq.2.symm⟩ hne
      · intro hmem
        exact Or.inl hmem

theorem schedRecipients_players (s db : Db) (m : Msg) (tid : Nat)
    (h : s.players = db.players) :
    schedRecipients s m tid = schedRecipients db m tid := by
  unfold schedRecipients
  rw [h]

theorem sched_fresh_team_step (f : Nat → Bool) (db : Db) (m : Msg) (t : TeamRec)
    (hm : m ∈ db.msgs) (ht : t ∈ db.teams)
    (hmnd : (db.msgs.map Msg.id).Nodup) (htnd : (db.teams.map TeamRec.id).Nodup)
    (m' : Msg) (t' : TeamRec) (hm' : m' ∈ db.msgs) (ht' : t' ∈ db.teams) (s : Db)
    (hQ : SchedStatic db s ∧
      (((m.id, t.id) ∉ s.deliveries ∧ countD s m.id t.id = 0 ∧
          pushesFor s m.id t.id = []) ∨
       ((m.id, t.id) ∈ s.deliveries ∧ countD s m.id t.id = 1 ∧
          pushesFor s m.id t.id =
            ((schedRecipients db m t.id).filter (fun p => p.tgId != 0)).map
              (fun p => { tgId := p.tgId, messageId := m.id, teamId := t.id,
                          ok := f p.tgId : Push })))) :
    SchedStatic db (schedProcessTeam f m' s t') ∧
      (((m.id, t.id) ∉ (schedProcessTeam f m' s t').deliveries ∧
          countD (schedProcessTeam f m' s t') m.id t.id = 0 ∧
          pushesFor (schedProcessTeam f m' s t') m.id t.id = []) ∨
       ((m.id, t.id) ∈ (schedProcessTeam f m' s t').deliveries ∧
          countD (schedProcessTeam f m' s t') m.id t.id = 1 ∧
          pushesFor (schedProcessTeam f m' s t') m.id t.id =
            ((schedRecipients db m t.id).filter (fun p => p.tgId != 0)).map
              (fun p => { tgId := p.tgId, messageId := m.id, teamId := t.id,
                          ok := f p.tgId : Push }))) := by
  obtain ⟨hst, hcase⟩ := hQ
  refine ⟨schedProcessTeam_static f m' s t' db hst, ?_⟩
  by_cases hpp : m'.id = m.id ∧ t'.id = t.id
  · have hm'm : m' = m := List.inj_on_of_nodup_map hmnd hm' hm hpp.1
    have ht't : t' = t := List.inj_on_of_nodup_map htnd ht' ht hpp.2
    subst hm'm
    subst ht't
    unfold schedProcessTeam
    by_cases hg : (s.deliveries.any (fun d => d.1 == m'.id && d.2 == t'.id)) = true
    · rw [if_pos hg]
      exact hcase
    · rw [if_neg hg]
      have hnotmem : (m'.id, t'.id) ∉ s.deliveries :=
        fun hmem => hg ((anyPair_iff _ _ _).2 hmem)
      rcases hcase with ⟨h1, h2, h3⟩ | ⟨h1, h2, h3⟩
      · right
        refine ⟨List.mem_append_right _ (List.mem_singleton_self _), ?_, ?_⟩
        · unfold countD at h2 ⊢
          simp only [List.filter_append, List.length_append]
          have hsingle : List.filter (fun d => d.1 == m'.id && d.2 == t'.id)
              [(m'.id, t'.id)] = [(m'.id, t'.id)] := by simp
          rw [hsingle, h2]
          rfl
        · unfold pushesFor at h3 ⊢
          simp only [List.filter_append]
          rw [h3, List.nil_append, List.filter_map]
          have hcomp : ((fun p : Push => p.messageId == m'.id && p.teamId == t'.id) ∘
              (fun p : PlayerRec => { tgId := p.tgId, messageId := m'.id,
                                      teamId := t'.id,
                                      ok := f p.tgId : Push })) = fun _ => true := by
            funext p
            simp
          rw [hcomp, schedRecipients_players s db m' t'.id hst.2.2.2]
          simp
      · exact absurd h1 hnotmem
  · have hother := sched_team_step_other f m' s t' m.id t.id hpp
    rcases hcase with ⟨h1, h2, h3⟩ | ⟨h1, h2, h3⟩
    · exact Or.inl ⟨fun hmem => h1 (hother.2.2.1 hmem),
        hother.1.trans h2, hother.2.1.trans h3⟩
    · exact Or.inr ⟨hother.2.2.2 h1, hother.1.trans h2, hother.2.1.trans h3⟩

theorem sched_fresh_msg_step (f : Nat → Bool) (now : Int) (db : Db) (m : Msg) (t : TeamRec)
    (hm : m ∈ db.msgs) (ht : t ∈ db.teams)
    (hmnd : (db.msgs.map Msg.id).Nodup) (htnd : (db.teams.map TeamRec.id).Nodup)
    (m' : Msg) (hm' : m' ∈ db.msgs) (s : Db)
    (hQ : SchedStatic db s ∧
      (((m.id, t.id) ∉ s.deliveries ∧ countD s m.id t.id = 0 ∧
          pushesFor s m.id t.id = []) ∨
       ((m.id, t.id) ∈ s.deliveries ∧ countD s m.id t.id = 1 ∧
          pushesFor s m.id t.id =
            ((schedRecipients db m t.id).filter (fun p => p.tgId != 0)).map
              (fun p => { tgId := p.tgId, messageId := m.id, teamId := t.id,
                          ok := f p.tgId : Push })))) :
    SchedStatic db (schedProcessMsg f now s m') ∧
      (((m.id, t.id) ∉ (schedProcessMsg f now s m').deliveries ∧
          countD (schedProcessMsg f now s m') m.id t.id = 0 ∧
          pushesFor (schedProcessMsg f now s m') m.id t.id = []) ∨
       ((m.id, t.id) ∈ (schedProcessMsg f now s m').deliveries ∧
          countD (schedProcessMsg f now s m') m.id t.id = 1 ∧
          pushesFor (schedProcessMsg f now s m') m.id t.id =
            ((schedRecipients db m t.id).filter (fun p => p.tgId != 0)).map
              (fun p => { tgId := p.tgId, messageId := m.id, teamId := t.id,
                          ok := f p.tgId : Push }))) := by
  unfold schedProcessMsg
  split
  · rw [hQ.1.2.2.1]
    exact foldl_invariant (fun s' => SchedStatic db s' ∧
        (((m.id, t.id) ∉ s'.deliveries ∧ countD s' m.id t.id = 0 ∧
            pushesFor s' m.id t.id = []) ∨
         ((m.id, t.id) ∈ s'.deliveries ∧ countD s' m.id t.id = 1 ∧
            pushesFor s' m.id t.id =
              ((schedRecipients db m t.id).filter (fun p => p.tgId != 0)).map
                (fun p => { tgId := p.tgId, messageId := m.id, teamId := t.id,
                            ok := f p.tgId : Push }))))
      (schedProcessTeam f m')
      (db.teams.filter (fun t'' => t''.eventId == m'.eventId)) s
      (fun s' x hx hP => sched_fresh_team_step f db m t hm ht hmnd htnd m' x hm'
        (List.mem_filter.1 hx).1 s' hP) hQ
  · exact hQ

theorem sched_run_fresh (f : Nat → Bool) (now : Int) (db : Db) (m : Msg) (t : TeamRec)
    (hm : m ∈ db.msgs) (ht : t ∈ db.teams) (hev : t.eventId = m.eventId)
    (hel : schedEligible db now m = true)
    (hmnd : (db.msgs.map Msg.id).Nodup) (htnd : (db.teams.map TeamRec.id).Nodup)
    (h0 : (m.id, t.id) ∉ db.deliveries) (hp0 : pushesFor db m.id t.id = []) :
    countD (processScheduledDialogues f now db) m.id t.id = 1 ∧
    pushesFor (processScheduledDialogues f now db) m.id t.id =
      ((schedRecipients db m t.id).filter (fun p => p.tgId != 0)).map
        (fun p => { tgId := p.tgId, messageId := m.id, teamId := t.id,
                    ok := f p.tgId : Push }) := by
  have hcount0 : countD db m.id t.id = 0 := by
    unfold countD
    rw [List.length_eq_zero, List.filter_eq_nil_iff]
    rintro ⟨d1, d2⟩ hd hpd
    simp only [Bool.and_eq_true, beq_iff_eq] at hpd
    apply h0
    rw [← hpd.1, ← hpd.2]
    exact hd
  have hQfinal := foldl_invariant (fun s' => SchedStatic db s' ∧
      (((m.id, t.id) ∉ s'.deliveries ∧ countD s' m.id t.id = 0 ∧
          pushesFor s' m.id t.id = []) ∨
       ((m.id, t.id) ∈ s'.deliveries ∧ countD s' m.id t.id = 1 ∧
          pushesFor s' m.id t.id =
            ((schedRecipients db m t.id).filter (fun p => p.tgId != 0)).map
              (fun p => { tgId := p.tgId, messageId := m.id, teamId := t.id,
                          ok := f p.tgId : Push }))))
    (schedProcessMsg f now) db.msgs db
    (fun s' x hx hP => sched_fresh_msg_step f now db m t hm ht hmnd htnd x hx s' hP)
    ⟨⟨rfl, rfl, rfl, rfl⟩, Or.inl ⟨h0, hcount0, hp0⟩⟩
  have hmem := sched_run_complete f now db m t hm ht hev hel
  rcases hQfinal.2 with ⟨h1, _, _⟩ | ⟨_, h2, h3⟩
  · exact absurd hmem h1
  · exact ⟨h2, h3⟩

theorem sched_team_rel (f g : Nat → Bool) (m : Msg) (t' : TeamRec) :
    ∀ s1 s2, EqExceptPush s1 s2 →
      EqExceptPush (schedProcessTeam f m s1 t') (schedProcessTeam g m s2 t') := by
  intro s1 s2 h
  obtain ⟨e1, e2, e3, e4, e5⟩ := h
  unfold schedProcessTeam
  by_cases hg : (s1.deliveries.any (fun d => d.1 == m.id && d.2 == t'.id)) = true
  · rw [if_pos hg, if_pos (by rw [← e5]; exact hg)]
    exact ⟨e1, e2, e3, e4, e5⟩
  · rw [if_neg hg, if_neg (by rw [← e5]; exact hg)]
    exact ⟨e1, e2, e3, e4, by rw [e5]⟩

theorem sched_msg_rel (f g : Nat → Bool) (now : Int) (m' : Msg) :
    ∀ s1 s2, EqExceptPush s1 s2 →
      EqExceptPush (schedProcessMsg f now s1 m') (schedProcessMsg g now s2 m') := by
  intro s1 s2 h
  unfold schedProcessMsg
  have helig : schedEligible s1 now m' = schedEligible s2 now m' := by
    unfold schedEligible
    rw [h.1]
  by_cases he : schedEligible s1 now m' = true
  · rw [if_pos he, if_pos (helig ▸ he)]
    rw [show s1.teams = s2.teams from h.2.2.1]
    exact foldl_rel EqExceptPush (schedProcessTeam f m') (schedProcessTeam g m')
      (fun a b x hr => sched_team_rel f g m' x a b hr) _ s1 s2
      ⟨h.1, h.2.1, h.2.2.1, h.2.2.2.1, h.2.2.2.2⟩
  · rw [if_neg he, if_neg (by rw [← helig]; exact he)]
    exact h

theorem sched_run_rel (f g : Nat → Bool) (now : Int) (db : Db) :
    (processScheduledDialogues f now db).deliveries =
      (processScheduledDialogues g now db).deliveries := by
  have h := foldl_rel EqExceptPush (schedProcessMsg f now) (schedProcessMsg g now)
    (fun s1 s2 x hr => sched_msg_rel f g now x s1 s2 hr) db.msgs db db
    ⟨rfl, rfl, rfl, rfl, rfl⟩
  exact h.2.2.2.2

/-- C1: for an elapsed scheduled message and a team of its event, the
push job skips the pair entirely when a ScheduledDelivery row exists;
otherwise it pushes once to each recipient with a Telegram id and writes
exactly one row, regardless of whether any recipient existed and
regardless of the booleans the push channel returns; hence a second run
sends nothing further for the pair and the row count stays one. -/
theorem scheduled_push_idempotent (db : Db) (sendOk1 sendOk2 : Nat → Bool)
    (now1 now2 : Int) (m : Msg) (t : TeamRec)
    (hm : m ∈ db.msgs) (ht : t ∈ db.teams) (hev : t.eventId = m.eventId)
    (hel : schedEligible db now1 m = true)
    (hmnd : (db.msgs.map Msg.id).Nodup) (htnd : (db.teams.map TeamRec.id).Nodup)
    (h0 : (m.id, t.id) ∉ db.deliveries) (hp0 : pushesFor db m.id t.id = []) :
    countD (processScheduledDialogues sendOk1 now1 db) m.id t.id = 1 ∧
    countD (processScheduledDialogues sendOk2 now2
      (processScheduledDialogues sendOk1 now1 db)) m.id t.id = 1 ∧
    pushesFor (processScheduledDialogues sendOk2 now2
        (processScheduledDialogues sendOk1 now1 db)) m.id t.id =
      pushesFor (processScheduledDialogues sendOk1 now1 db) m.id t.id ∧
    pushesFor (processScheduledDialogues sendOk1 now1 db) m.id t.id =
      ((schedRecipients db m t.id).filter (fun p => p.tgId != 0)).map
        (fun p => { tgId := p.tgId, messageId := m.id, teamId := t.id,
                    ok := sendOk1 p.tgId : Push }) ∧
    (∀ f g : Nat → Bool,
      (processScheduledDialogues f now1 db).deliveries =
        (processScheduledDialogues g now1 db).deliveries) ∧
    (∀ (dbX : Db) (a b : Nat), (a, b) ∈ dbX.deliveries →
      countD (processScheduledDialogues sendOk1 now1 dbX) a b = countD dbX a b ∧
      pushesFor (processScheduledDialogues sendOk1 now1 dbX) a b = pushesFor dbX a b) := by
  have hfresh := sched_run_fresh sendOk1 now1 db m t hm ht hev hel hmnd htnd h0 hp0
  have hmem1 := sched_run_complete sendOk1 now1 db m t hm ht hev hel
  have hskip2 := sched_run_skip sendOk2 now2
    (processScheduledDialogues sendOk1 now1 db) m.id t.id hmem1
  exact ⟨hfresh.1, hskip2.1.trans hfresh.1, hskip2.2, hfresh.2,
    fun f g => sched_run_rel f g now1 db,
    fun dbX a b hmem => sched_run_skip sendOk1 now1 dbX a b hmem⟩

/-- Witness for C1: on `schedDb` (one elapsed scheduled message, one
team with one pushable player and one player without a Telegram id) the
first run pushes once and writes one row, the second run adds nothing,
and the outcome ignores the channel's booleans. -/
theorem scheduled_push_idempotent_witness :
    countD (processScheduledDialogues (fun _ => true) 60 schedDb) 6 7 = 1 ∧
    countD (processScheduledDialogues (fun _ => false) 120
      (processScheduledDialogues (fun _ => true) 60 schedDb)) 6 7 = 1 ∧
    pushesFor (processScheduledDialogues (fun _ => false) 120
        (processScheduledDialogues (fun _ => true) 60 schedDb)) 6 7 =
      pushesFor (processScheduledDialogues (fun _ => true) 60 schedDb) 6 7 ∧
    pushesFor (processScheduledDialogues (fun _ => true) 60 schedDb) 6 7 =
      [{ tgId := 101, messageId := 6, teamId := 7, ok := true }] ∧
    (processScheduledDialogues (fun _ => true) 60 schedDb).deliveries =
      (processScheduledDialogues (fun _ => false) 60 schedDb).deliveries ∧
    countD (processScheduledDialogues (fun _ => true) 60
      { schedDb with deliveries := [(6, 7)] }) 6 7 =
      countD { schedDb with deliveries := [(6, 7)] } 6 7 := by
  have h := scheduled_push_idempotent schedDb (fun _ => true) (fun _ => false) 60 120
    { id := 6, eventId := 1, threadId := 1,
      gateRules := some { conditionType := some "scheduled",
                          scheduledAt := some (TimeStr.valid 50) } }
    { id := 7, eventId := 1 }
    (by decide) (by decide) (by decide) (by decide) (by decide) (by decide)
    (by decide) (by decide)
  refine ⟨h.1, h.2.1, h.2.2.1, h.2.2.2.1.trans (by decide),
    h.2.2.2.2.1 (fun _ => true) (fun _ => false),
    (h.2.2.2.2.2 { schedDb with deliveries := [(6, 7)] } 6 7 (by decide)).1⟩

theorem transStep_unlock_skip (s : Db) (g : TriggerRow) (a b : Nat)
    (h : (a, b) ∈ s.unlocks) :
    countU (transStep s g) a b = countU s a b ∧ (a, b) ∈ (transStep s g).unlocks := by
  unfold transStep
  by_cases hu : (s.unlocks.any (fun u => u.1 == g.targetThreadId && u.2 == g.teamId)) = true
  · rw [if_pos hu]
    exact ⟨rfl, h⟩
  · rw [if_neg hu]
    have hne : ¬(g.targetThreadId = a ∧ g.teamId = b) := by
      rintro ⟨h1, h2⟩
      apply hu
      rw [anyPair_iff, h1, h2]
      exact h
    constructor
    · unfold countU
      simp only [List.filter_append, List.length_append]
      have hnil : List.filter (fun u => u.1 == a && u.2 == b)
          [(g.targetThreadId, g.teamId)] = [] := by
        simp only [List.filter]
        rw [pair_beq_false hne]
      rw [hnil]
      simp
    · exact List.mem_append_left _ h

theorem trans_run_unlock_skip (now : Int) (db : Db) (a b : Nat)
    (h : (a, b) ∈ db.unlocks) :
    countU (processTransitions now db) a b = countU db a b := by
  unfold processTransitions
  exact (foldl_invariant (fun s => countU s a b = countU db a b ∧ (a, b) ∈ s.unlocks)
    transStep
    (db.triggers.filter (fun g => decide (g.unlockAt ≤ now) &&
      db.threads.any (fun t => t.id == g.targetThreadId))) db
    (fun s g _ hP => ⟨(transStep_unlock_skip s g a b hP.2).1.trans hP.1,
      (transStep_unlock_skip s g a b hP.2).2⟩) ⟨rfl, h⟩).1

/-- C7 counterexample: the schema declares no unique key over
`(message_id, team_id)` or `(thread_id, team_id)` — only the integer
primary keys — so the store admits two rows carrying the identical
pair, a state the claimed unique key would reject. -/
theorem no_store_unique_key_counterexample :
    ["message_id", "team_id"] ∉ scheduledDeliveryUniqueConstraints ∧
    ["thread_id", "team_id"] ∉ threadUnlockUniqueConstraints ∧
    deliveryTableAdmits [⟨1, 5, 7⟩, ⟨2, 5, 7⟩] = true ∧
    unlockTableAdmits [⟨1, 3, 7⟩, ⟨2, 3, 7⟩] = true ∧
    deliveryRowsUnique ["message_id", "team_id"] [⟨1, 5, 7⟩, ⟨2, 5, 7⟩] = false ∧
    unlockRowsUnique ["thread_id", "team_id"] [⟨1, 3, 7⟩, ⟨2, 3, 7⟩] = false := by
  refine ⟨by decide, by decide, by decide, by decide, by decide, by decide⟩

/-- C7 (amended): per-pair uniqueness of ScheduledDelivery and
ThreadUnlock rows is maintained by the jobs' application-level
check-then-insert (a pair already present is never written again), not
by a store-level unique key — the schema declares none on those column
pairs. -/
theorem idempotency_by_application_checks :
    scheduledDeliveryUniqueConstraints = [] ∧
    threadUnlockUniqueConstraints = [] ∧
    (∀ (f : Nat → Bool) (now : Int) (db : Db) (a b : Nat),
      (a, b) ∈ db.deliveries →
      countD (processScheduledDialogues f now db) a b = countD db a b) ∧
    (∀ (now : Int) (db : Db) (a b : Nat), (a, b) ∈ db.unlocks →
      countU (processTransitions now db) a b = countU db a b) := by
  refine ⟨rfl, rfl, ?_, ?_⟩
  · intro f now db a b h
    exact (sched_run_skip f now db a b h).1
  · intro now db a b h
    exact trans_run_unlock_skip now db a b h

/-- Witness for C7's amended statement: a store already holding the
delivery row (6, 7) and the unlock row (2, 7) gains no second row from
either job. -/
theorem idempotency_by_application_checks_witness :
    scheduledDeliveryUniqueConstraints = [] ∧
    countD (processScheduledDialogues (fun _ => true) 60
      { schedDb with deliveries := [(6, 7)] }) 6 7 =
      countD { schedDb with deliveries := [(6, 7)] } 6 7 ∧
    countU (processTransitions 10
      { trigDb with unlocks := [(2, 7)], triggers := [⟨1, 7, 5, 2, 5⟩] }) 2 7 =
      countU { trigDb with unlocks := [(2, 7)], triggers := [⟨1, 7, 5, 2, 5⟩] } 2 7 := by
  refine ⟨idempotency_by_application_checks.1, ?_, ?_⟩
  · exact idempotency_by_application_checks.2.2.1 (fun _ => true) 60
      { schedDb with deliveries := [(6, 7)] } 6 7 (by decide)
  · exact idempotency_by_application_checks.2.2.2 10
      { trigDb with unlocks := [(2, 7)], triggers := [⟨1, 7, 5, 2, 5⟩] } 2 7 (by decide)

end BotDD
